import Mathlib

/-
Verification of the dq-sentinel data-quality checker.

This file shallowly embeds the core of the repository — the check library
(src/checks.py) and the analyzer / blocking policy / runner
(src/dq_sentinel.py) — and proves or refutes the frozen claims about it.

Modelling conventions (fixed throughout):
  * A DataFrame is a `Table`: a list of column names plus a list of rows.
    Rows carry every field the checks can read; whether a column "exists"
    is governed solely by `Table.cols`, exactly as the guards in the
    source test `"units" in df.columns` before touching data.
  * The table is the *normalized* frame (the output of `normalize_df`):
    `units` and `price` are already numeric-or-null (`Option ℚ`),
    `week_start` and the parsed load timestamp are dates at day
    granularity (`Option Int`, days since an epoch; `none` models NaT),
    and `load_ts` keeps the raw string.  Python floats are modelled as
    exact rationals; float NaN results of `median`/`std` are modelled as
    `none` (comparisons against NaN are false in Python, and the
    `Option`-aware comparison helpers below return `false` on `none`).
  * Where the source compares a z-score `|Δ|/σ ≥ θ` the embedding
    compares `Δ² ≥ θ²·σ²`, which is equivalent for `θ ≥ 0` and keeps all
    arithmetic rational; example records store the squared z-score.
  * A raised Python exception is modelled as `Except.error`; the string
    payload is a label for the exception, its exact text is not part of
    the model.
  * Presentation-only strings (the `hint` fields) render lists and dates
    with plain `toString`, not Python's repr; no claim depends on hint
    text.
  * pandas facts the embedding relies on: multi-column `sort_values`
    uses `lexsort`, which is stable, so it is modelled with the stable
    `List.mergeSort`; `groupby` sorts group keys and drops null keys;
    `Series.unique` keeps first occurrences (`dedupFirst`); `duplicated`
    treats equal nulls as equal.
-/

namespace DQ

/-- One row of a (normalized) weekly-sales table.  `delta_days` models the
`delta_days` column that `detect_partial_backfill` assigns on its private
copy of the frame; input tables carry `none` there. -/
structure Row where
  week_start : Option Int
  sku_id : Int
  store_id : Int
  units : Option ℚ
  price : Option ℚ
  inventory_on_hand : Option ℚ
  currency : Option String
  load_ts : Option String
  source_file : Option String
  load_ts_parsed : Option Int
  delta_days : Option Int
  deriving DecidableEq, Repr

/-- A normalized DataFrame: column names plus rows. -/
structure Table where
  cols : List String
  rows : List Row
  deriving DecidableEq, Repr

/-- df.copy(): a fresh object with the same data.  In the value semantics of
the embedding this is the identity on the data; what matters is that the
source routes every in-place write through such a copy, which the
state-passing check variants below make explicit. -/
def tableCopy (t : Table) : Table := ⟨t.cols, t.rows⟩

/-- Sum of a list of rationals. -/
def sumQ (l : List ℚ) : ℚ := l.sum

/-- Series.mean over an already null-free list (callers guarantee
nonemptiness; pandas would give NaN on an empty series). -/
def lmean (l : List ℚ) : ℚ := sumQ l / (l.length : ℚ)

/-- Insertion of an element into a le-sorted list, after every element that
is le-before it; the building block of the stable sort below. -/
def insertSorted {α : Type} (le : α → α → Bool) (x : α) : List α → List α
  | [] => [x]
  | y :: ys => if le y x then y :: insertSorted le x ys else x :: y :: ys

/-- Stable sort by a total boolean preorder (insertion sort).  pandas sorts
with stable algorithms everywhere the source sorts (multi-column
sort_values uses lexsort, sorted() is stable), and a stable sort of a
total preorder is unique, so insertion sort models them faithfully while
staying kernel-computable. -/
def stableSort {α : Type} (le : α → α → Bool) (l : List α) : List α :=
  l.foldl (fun acc x => insertSorted le x acc) []

/-- Series.median: sort, take the middle element (odd length) or the mean of
the two middle elements (even length); `none` models the NaN median of an
empty series. -/
def median (xs : List ℚ) : Option ℚ :=
  let s := stableSort (fun a b => decide (a ≤ b)) xs
  let n := s.length
  if n = 0 then none
  else if n % 2 = 1 then s[n / 2]?
  else
    match s[n / 2 - 1]?, s[n / 2]? with
    | some a, some b => some ((a + b) / 2)
    | _, _ => none

/-- Series.std(ddof=1): the sample variance (squared std, kept rational);
`none` models the NaN std of a series with fewer than two values. -/
def sampleVar (l : List ℚ) : Option ℚ :=
  if l.length ≤ 1 then none
  else some (sumQ (l.map (fun x => (x - lmean l) ^ 2)) / ((l.length : ℚ) - 1))

/-- Comparison `m < c` where `m` may be NaN/none: false on none, as for
Python NaN comparisons. -/
def oLt (m : Option ℚ) (c : ℚ) : Bool :=
  match m with
  | some x => decide (x < c)
  | none => false

/-- Comparison `m > c` where `m` may be NaN/none: false on none. -/
def oGt (m : Option ℚ) (c : ℚ) : Bool :=
  match m with
  | some x => decide (c < x)
  | none => false

/-- Python `q % 1 == 0`: the value is integer-valued (equals its floor). -/
def isIntQ (q : ℚ) : Bool := decide (q = (⌊q⌋ : ℚ))

/-- The non-null values of the price column, in frame order
(`pd.to_numeric(df["price"]).dropna()`; the model's column is already
numeric). -/
def priceVals (t : Table) : List ℚ := t.rows.filterMap (fun r => r.price)

/-- The non-null values of the units column, in frame order. -/
def unitVals (t : Table) : List ℚ := t.rows.filterMap (fun r => r.units)

/-- checks.expected_schema_v1. -/
def expected_schema_v1 : List String :=
  ["week_start", "sku_id", "store_id", "units", "price",
   "inventory_on_hand", "currency", "load_ts", "source_file"]

/-- Diagnostic record of check_schema. -/
structure SchemaDiag where
  missing_columns : List String
  extra_columns : List String
  schema_ok : Bool
  deriving DecidableEq, Repr

/-- checks.check_schema against the default expected schema (the analyzer
always passes `expected_schema_v1`). -/
def check_schema (t : Table) : SchemaDiag :=
  let missing := expected_schema_v1.filter (fun c => !(t.cols.contains c))
  let extra := t.cols.filter (fun c => !(expected_schema_v1.contains c))
  ⟨missing, extra, missing.length = 0⟩

/-- Diagnostic record of detect_schema_versioning. -/
structure SVDiag where
  schema_changed : Bool
  missing : List String
  extra : List String
  hint : String
  deriving DecidableEq, Repr

/-- checks.detect_schema_versioning against the default expected schema. -/
def detect_schema_versioning (t : Table) : SVDiag :=
  let missing := expected_schema_v1.filter (fun c => !(t.cols.contains c))
  let extra := t.cols.filter (fun c => !(expected_schema_v1.contains c))
  let changed := 0 < missing.length ∨ 0 < extra.length
  { schema_changed := changed
    missing := missing
    extra := extra
    hint := if changed then
        "Missing columns: " ++ toString missing ++ ". Extra columns: " ++ toString extra ++ "."
      else "" }

/-- The default primary key, `["week_start", "sku_id", "store_id"]`. -/
def pkDefault : List String := ["week_start", "sku_id", "store_id"]

/-- The primary-key triple of a row (pandas `duplicated` treats equal NaT
values as equal, as does equality on `Option Int`). -/
def pkKey (r : Row) : Option Int × Int × Int := (r.week_start, r.sku_id, r.store_id)

/-- Number of rows carrying a given primary-key triple. -/
def keyCount (rows : List Row) (k : Option Int × Int × Int) : Nat :=
  rows.countP (fun s => decide (pkKey s = k))

/-- Diagnostic record of check_duplicates: either the sentinel for a missing
primary-key column (duplicate_count = None, sample = []) or counts. -/
inductive DupDiag where
  | pk_column_missing (pk : List String)
  | ok (pk : List String) (duplicate_count : Nat) (sample : List Row)
  deriving DecidableEq, Repr

/-- checks.check_duplicates with the default primary key (the analyzer never
passes another one).  `duplicated(subset=pk, keep=False)` marks every row
whose key occurs at least twice; the sample is the first ten such rows. -/
def check_duplicates (t : Table) : DupDiag :=
  if pkDefault.all (fun c => t.cols.contains c) then
    let dup := t.rows.filter (fun r => decide (2 ≤ keyCount t.rows (pkKey r)))
    .ok pkDefault dup.length (dup.take 10)
  else .pk_column_missing pkDefault

/-- Distinct values keeping first occurrences (Series.unique /
drop_duplicates), with the already-seen values as accumulator. -/
def dedupFirstAux {α : Type} [DecidableEq α] (seen : List α) : List α → List α
  | [] => []
  | x :: xs =>
    if x ∈ seen then dedupFirstAux seen xs
    else x :: dedupFirstAux (x :: seen) xs

/-- Distinct values of a list, keeping first occurrences. -/
def dedupFirst {α : Type} [DecidableEq α] (l : List α) : List α :=
  dedupFirstAux [] l

/-- Sorted-ascending distinct values of a list of dates (sort then
drop_duplicates; keeping first occurrences of a sorted list yields the
sorted distinct values). -/
def sortedDistinct (l : List Int) : List Int :=
  dedupFirst (stableSort (fun a b => decide (a ≤ b)) l)

/-- One element of the gap_examples list of check_date_continuity. -/
structure GapExample where
  sku_id : Int
  store_id : Int
  bad_diffs_sample : List Int
  deriving DecidableEq, Repr

/-- Diagnostic record of check_date_continuity. -/
inductive ContDiag where
  | no_week_start_column
  | ok (groups_total : Nat) (groups_with_gaps : Nat) (gap_examples : List GapExample)
  deriving DecidableEq, Repr

/-- Sorted distinct (sku_id, store_id) group keys, as pandas `groupby`
iterates them (sort=True is the default). -/
def groupKeysOf (rows : List Row) : List (Int × Int) :=
  dedupFirst (stableSort (fun a b => decide (a.1 < b.1 ∨ (a.1 = b.1 ∧ a.2 ≤ b.2)))
    (rows.map (fun r => (r.sku_id, r.store_id))))

/-- The rows of one (sku_id, store_id) group, in frame order. -/
def groupRowsOf (rows : List Row) (k : Int × Int) : List Row :=
  rows.filter (fun r => decide ((r.sku_id, r.store_id) = k))

/-- checks.check_date_continuity.  Guards only `week_start`; the
`groupby(["sku_id", "store_id"])` raises a KeyError — modelled as
`Except.error` — when either grouping column is absent.  Per group: the
distinct sorted weeks, their consecutive day differences, and the count of
differences that are neither `freq_days` nor 0; a group has gaps when that
count exceeds `allowed_gaps`.  The example rows record the first five
differences. -/
def check_date_continuity (t : Table) (freq_days : Int) (allowed_gaps : Nat) :
    Except String ContDiag :=
  if !(t.cols.contains "week_start") then .ok .no_week_start_column
  else if !(t.cols.contains "sku_id" && t.cols.contains "store_id") then
    .error "KeyError: sku_id / store_id"
  else
    let keys := groupKeysOf t.rows
    let step := fun (acc : Nat × Nat × List GapExample) (k : Int × Int) =>
      let sub := groupRowsOf t.rows k
      let weeks := sortedDistinct (sub.filterMap (fun r => r.week_start))
      let total := acc.1 + 1
      if weeks.length < 2 then (total, acc.2.1, acc.2.2)
      else
        let diffs := List.zipWith (fun a b => a - b) weeks.tail weeks
        let badCount := diffs.countP (fun d => decide (d ≠ freq_days ∧ d ≠ 0))
        if allowed_gaps < badCount then
          (total, acc.2.1 + 1, acc.2.2 ++ [⟨k.1, k.2, diffs.take 5⟩])
        else (total, acc.2.1, acc.2.2)
    let r := keys.foldl step (0, 0, [])
    .ok (.ok r.1 r.2.1 (r.2.2.take 10))

/-- One element of the examples list of detect_level_shift.  The source
stores the float z-score; the embedding stores its square (`z_sq`) to stay
rational — the two determine each other on nonnegative values. -/
structure LSExample where
  sku_id : Int
  store_id : Int
  z_sq : ℚ
  first_mean : ℚ
  last_mean : ℚ
  deriving DecidableEq, Repr

/-- Diagnostic record of detect_level_shift. -/
inductive LSDiag where
  | columns_missing
  | ok (groups_tested : Nat) (groups_with_level_shift : Nat) (examples : List LSExample)
  deriving DecidableEq, Repr

/-- NaT-last comparison of week_start values (na_position default). -/
def wsLe (x y : Option Int) : Bool :=
  match x, y with
  | some a, some b => decide (a ≤ b)
  | some _, none => true
  | none, some _ => false
  | none, none => true

/-- The ordering used by `sort_values(["sku_id", "store_id", "week_start"])`:
lexicographic, NaT sorted last. -/
def rowKeyLe (a b : Row) : Bool :=
  decide (a.sku_id < b.sku_id) ||
  (decide (a.sku_id = b.sku_id) &&
    (decide (a.store_id < b.store_id) ||
     (decide (a.store_id = b.store_id) && wsLe a.week_start b.week_start)))

/-- checks.detect_level_shift, state-passing form.  The source copies the
frame and re-sorts the copy (`sort_values` returns a new frame); all reads
are from the sorted copy and the caller's frame — the second component —
is returned unchanged.  Raises (models KeyError) when `sku_id` or
`store_id` is absent while `units` and `week_start` are present.
Per group: first- and last-window means of the non-null units, sample
variance of all of them; skip if fewer than 2·window values or zero/NaN
variance; a shift is flagged when `Δ² ≥ z_threshold²·var`. -/
def detect_level_shift_run (t : Table) (window : Nat) (z_threshold : ℚ) :
    Except String LSDiag × Table :=
  if !(t.cols.contains "units") || !(t.cols.contains "week_start") then
    (.ok .columns_missing, t)
  else if !(t.cols.contains "sku_id" && t.cols.contains "store_id") then
    (.error "KeyError: sku_id / store_id", t)
  else
    let dfc := tableCopy t
    let dfs : Table := ⟨dfc.cols, stableSort rowKeyLe dfc.rows⟩
    let keys := groupKeysOf dfs.rows
    let step := fun (acc : Nat × Nat × List LSExample) (k : Int × Int) =>
      let sub := groupRowsOf dfs.rows k
      let units := sub.filterMap (fun r => r.units)
      if units.length < 2 * window then acc
      else
        let tested := acc.1 + 1
        let firstMean := lmean (units.take window)
        let lastMean := lmean (units.drop (units.length - window))
        match sampleVar units with
        | none => (tested, acc.2.1, acc.2.2)
        | some v =>
          if v = 0 then (tested, acc.2.1, acc.2.2)
          else if z_threshold ^ 2 * v ≤ (lastMean - firstMean) ^ 2 then
            (tested, acc.2.1 + 1,
             acc.2.2 ++ [⟨k.1, k.2, (lastMean - firstMean) ^ 2 / v, firstMean, lastMean⟩])
          else (tested, acc.2.1, acc.2.2)
    let r := keys.foldl step (0, 0, [])
    (.ok (.ok r.1 r.2.1 (r.2.2.take 10)), t)

/-- checks.detect_level_shift, result only. -/
def detect_level_shift (t : Table) (window : Nat) (z_threshold : ℚ) :
    Except String LSDiag :=
  (detect_level_shift_run t window z_threshold).1

/-- Diagnostic record of detect_unit_price_mixup.  The medians are `none`
when NaN (empty column); `ratio_units_to_price` is `none` both for the
explicit None (price median zero) and for a NaN ratio. -/
inductive MixDiag where
  | columns_missing
  | ok (price_median : Option ℚ) (units_median : Option ℚ)
      (ratio_units_to_price : Option ℚ) (suspected_unit_price_mixup : Bool)
      (hint : String)
  deriving DecidableEq, Repr

/-- checks.detect_unit_price_mixup.  Heuristic (a): median price < 1.5 and
median units > 10.  Heuristic (b), tried only when (a) did not fire: the
price column is nonempty, strictly more than 90% of its non-null values
are integer-valued, its median is > 5, and the units median is < 2.
Comparisons against a NaN median are false. -/
def detect_unit_price_mixup (t : Table) : MixDiag :=
  if !(t.cols.contains "price") || !(t.cols.contains "units") then .columns_missing
  else
    let pv := priceVals t
    let uv := unitVals t
    let pm := median pv
    let um := median uv
    let rt : Option ℚ :=
      match pm, um with
      | some p, some u => if p = 0 then none else some (u / p)
      | _, _ => none
    if oLt pm (3 / 2) && oGt um 10 then
      .ok pm um rt true
        "Median price < 1.5 while median units > 10 -- possible price/units mixup."
    else if 0 < pv.length &&
        decide ((9 : ℚ) / 10 < ((pv.countP isIntQ : ℚ) / (pv.length : ℚ))) &&
        oGt (median pv) 5 && oLt um 2 then
      .ok pm um rt true
        "Price values look integer-like and larger than typical units; possible swap."
    else .ok pm um rt false ""

/-- Python round-half-to-even of `q` to `d` decimal places (the semantics of
`round(x, d)`; binary-float representation artifacts are outside the
rational model). -/
def pyRound (q : ℚ) (d : Nat) : ℚ :=
  let p : ℚ := (10 : ℚ) ^ d
  let x := q * p
  let f : Int := Int.floor x
  let r := x - (f : ℚ)
  let n : Int :=
    if r < 1 / 2 then f
    else if 1 / 2 < r then f + 1
    else if f % 2 = 0 then f else f + 1
  (n : ℚ) / p

/-- Decimal rendering of a rational whose denominator divides a power of
ten, used for the reason tags and hints the source builds from rounded
floats (for other denominators it falls back to the fraction rendering;
never reached through `pyRound`). -/
def decStr (q : ℚ) (d : Nat) : String :=
  let p : Int := (10 : Int) ^ d
  if q.num * p % (q.den : Int) ≠ 0 then toString q
  else
    let scaled : Int := q.num * p / (q.den : Int)
    let sign := if scaled < 0 then "-" else ""
    let a := scaled.natAbs
    let ip := a / p.natAbs
    let fp := a % p.natAbs
    let fpStr := toString fp
    let pad := String.mk (List.replicate (d - fpStr.length) (Char.ofNat 48))
    let trimmed := (pad ++ fpStr).dropRightWhile (fun c => c = Char.ofNat 48)
    sign ++ toString ip ++ "." ++ (if trimmed = "" then "0" else trimmed)

/-- Diagnostic record of detect_partial_backfill. -/
inductive PBDiag where
  | columns_missing
  | no_load_ts_parsed
  | ok (count_checked : Nat) (count_backfilled : Nat) (pct_backfilled : ℚ) (hint : String)
  deriving DecidableEq, Repr

/-- checks.detect_partial_backfill, state-passing form.  The source copies
the frame and assigns the `delta_days` column on the copy; the caller's
frame — the second component — is returned unchanged.  Deltas are days
between the parsed load timestamp and week_start (day granularity in the
model); rows where either is null are excluded. -/
def detect_partial_backfill_run (t : Table) (threshold_days : Int) : PBDiag × Table :=
  if !(t.cols.contains "week_start") || !(t.cols.contains "load_ts_parsed") then
    (.columns_missing, t)
  else
    let dfc0 := tableCopy t
    let dfc : Table :=
      ⟨(if dfc0.cols.contains "delta_days" then dfc0.cols else dfc0.cols ++ ["delta_days"]),
       dfc0.rows.map (fun r =>
         { r with delta_days :=
             match r.load_ts_parsed, r.week_start with
             | some l, some w => some (l - w)
             | _, _ => none })⟩
    let valid := dfc.rows.filterMap (fun r => r.delta_days)
    if valid.length = 0 then (.no_load_ts_parsed, t)
    else
      let backfilled := valid.countP (fun d => decide (threshold_days < d))
      let pct : ℚ := (backfilled : ℚ) / (valid.length : ℚ)
      let hint :=
        if 1 / 20 < pct then
          decStr (pyRound (pct * 100) 2) 2 ++ "% of rows were loaded > " ++
            toString threshold_days ++
            " days after the week_start -- partial backfill likely."
        else ""
      (.ok valid.length backfilled pct hint, t)

/-- checks.detect_partial_backfill, result only. -/
def detect_partial_backfill (t : Table) (threshold_days : Int) : PBDiag :=
  (detect_partial_backfill_run t threshold_days).1

/-- Match of the timezone regex alternative `[+-]DD:?DD` or `Z` anchored at
the head of the character list. -/
def tzTokenAt (cs : List Char) : Option String :=
  match cs with
  | [] => none
  | c :: rest =>
    if c = '+' ∨ c = '-' then
      match rest with
      | d1 :: d2 :: more =>
        if d1.isDigit ∧ d2.isDigit then
          match more with
          | ':' :: d3 :: d4 :: _ =>
            if d3.isDigit ∧ d4.isDigit then some (String.mk [c, d1, d2, ':', d3, d4])
            else none
          | d3 :: d4 :: _ =>
            if d3.isDigit ∧ d4.isDigit then some (String.mk [c, d1, d2, d3, d4])
            else none
          | _ => none
        else none
      | _ => none
    else if c = 'Z' then some "Z"
    else none

/-- First match of the timezone pattern anywhere in the string, scanning
left to right as `Series.str.extract` does. -/
def firstTz (s : String) : Option String :=
  let rec go : List Char → Option String
    | [] => none
    | c :: rest =>
      match tzTokenAt (c :: rest) with
      | some tok => some tok
      | none => go rest
  go s.data

/-- Diagnostic record of detect_timezone_shift. -/
inductive TzDiag where
  | no_load_ts_column
  | ok (tz_variants : List String) (duplicate_pk_count : Nat) (suspicious : Bool)
      (hint : String)
  deriving DecidableEq, Repr

/-- checks.detect_timezone_shift.  `astype(str)` turns a null load_ts into
the string "nan" (which contains no timezone pattern); distinct extracted
patterns keep first-occurrence order; the duplicate-PK count is recomputed
only when all three key columns are present. -/
def detect_timezone_shift (t : Table) : TzDiag :=
  if !(t.cols.contains "load_ts") then .no_load_ts_column
  else
    let variants :=
      dedupFirst (t.rows.filterMap (fun r =>
        firstTz (match r.load_ts with | some s => s | none => "nan")))
    let dupPk :=
      if pkDefault.all (fun c => t.cols.contains c) then
        t.rows.countP (fun r => decide (2 ≤ keyCount t.rows (pkKey r)))
      else 0
    let suspicious := 1 < variants.length ∨ 0 < dupPk
    let hint :=
      (if 1 < variants.length then
        "Found multiple timezone patterns in load_ts: " ++ toString variants ++ ". "
      else "") ++
      (if 0 < dupPk then
        "Found duplicate primary keys which may be caused by timezone-normalization inconsistencies. "
      else "")
    .ok variants dupPk suspicious hint

/-- Weekly aggregate of units: distinct non-null weeks in ascending order
(groupby drops null keys and sorts), each with the null-skipping sum of
units over its rows (an all-null group sums to 0, as pandas sum does). -/
def weeklyAgg (t : Table) : List (Int × ℚ) :=
  (sortedDistinct (t.rows.filterMap (fun r => r.week_start))).map (fun w =>
    (w, sumQ ((t.rows.filter (fun r => decide (r.week_start = some w))).filterMap
      (fun r => r.units))))

/-- Pearson correlation of two equal-length series, represented without the
square root to stay rational: the pair (covariance numerator, product of
the two variance numerators); the float correlation is the first over the
square root of the second.  `none` models NaN (fewer than two points). -/
def corrRep (xs ys : List ℚ) : Option (ℚ × ℚ) :=
  let n := min xs.length ys.length
  if n ≤ 1 then none
  else
    let xs := xs.take n
    let ys := ys.take n
    let mx := lmean xs
    let my := lmean ys
    let cov := sumQ ((xs.zip ys).map (fun p => (p.1 - mx) * (p.2 - my)))
    let vx := sumQ (xs.map (fun x => (x - mx) ^ 2))
    let vy := sumQ (ys.map (fun y => (y - my) ^ 2))
    some (cov, vx * vy)

/-- Diagnostic record of detect_seasonality_break; autocorrelations are kept
in the rational `corrRep` representation. -/
inductive SeasDiag where
  | missing_columns
  | not_enough_history (n_weeks : Nat)
  | ok (n_weeks : Nat) (acf_lag1 : Option (ℚ × ℚ)) (acf_lag52 : Option (ℚ × ℚ))
  deriving DecidableEq, Repr

/-- checks.detect_seasonality_break.  `Series.autocorr(lag)` correlates the
series with itself shifted by `lag` over the complete pairs. -/
def detect_seasonality_break (t : Table) : SeasDiag :=
  if !(t.cols.contains "week_start") || !(t.cols.contains "units") then .missing_columns
  else
    let agg := (weeklyAgg t).map (fun p => p.2)
    let n := agg.length
    if n < 24 then .not_enough_history n
    else
      let acf1 := if 1 < n then corrRep (agg.drop 1) (agg.take (n - 1)) else none
      let acf52 := if 52 < n then corrRep (agg.drop 52) (agg.take (n - 52)) else none
      .ok n acf1 acf52

/-- A promo or calendar side table: its column names and the raw week_start
cells (`none` models a null cell). -/
structure SideTable where
  cols : List String
  ws_cells : List (Option String)
  deriving DecidableEq, Repr

/-- promos.copy() / calendar.copy(): fresh object, same data. -/
def sideCopy (p : SideTable) : SideTable := ⟨p.cols, p.ws_cells⟩

/-- Parse of a week_start cell by pd.to_datetime(errors="coerce"), modelled
for ISO `YYYY-MM-DD` strings (the repository's data format), as days since
1970-01-01; anything else coerces to null. -/
def parseDate (s : String) : Option Int :=
  match s.splitOn "-" with
  | [ys, ms, ds] =>
    if ys.length = 4 ∧ ms.length = 2 ∧ ds.length = 2 ∧
        (ys.data ++ ms.data ++ ds.data).all Char.isDigit then
      let y : Int := Int.ofNat ys.toNat!
      let m : Int := Int.ofNat ms.toNat!
      let d : Int := Int.ofNat ds.toNat!
      if 1 ≤ m ∧ m ≤ 12 ∧ 1 ≤ d ∧ d ≤ 31 then
        let y2 := if m ≤ 2 then y - 1 else y
        let era := (if 0 ≤ y2 then y2 else y2 - 399) / 400
        let yoe := y2 - era * 400
        let mp := (m + 9) % 12
        let doy := (153 * mp + 2) / 5 + d - 1
        let doe := yoe * 365 + yoe / 4 - yoe / 100 + doy
        some (era * 146097 + doe - 719468)
      else none
    else none
  | _ => none

/-- Diagnostic record of promo_calendar_diagnostics. -/
inductive PromoDiag where
  | no_data (hints : List String)
  | missing_columns (hints : List String)
  | not_enough_history (hints : List String)
  | no_big_changes (hints : List String)
  | ok (n_big_changes : Nat) (big_change_weeks : List Int) (hints : List String)
  deriving DecidableEq, Repr

/-- Weeks (beyond the first) whose absolute week-over-week relative change
exceeds 0.5.  pct_change against a zero previous value is +-inf (counts as
big) unless the current value is also zero (NaN, filled with 0); the first
week's NaN is filled with 0 and never counts. -/
def bigChangeWeeks (agg : List (Int × ℚ)) : List Int :=
  (agg.zip agg.tail).filterMap (fun p =>
    let prev := p.1.2
    let cur := p.2.2
    if (if prev = 0 then decide (cur ≠ 0) else decide (1 / 2 < |cur / prev - 1|)) then
      some p.2.1
    else none)

/-- The distinct parsed promo/calendar weeks of a side table, in
first-occurrence order, after the in-place week_start parse the source
performs on its private copy. -/
def sideWeeks (p : SideTable) : List Int :=
  dedupFirst ((sideCopy p).ws_cells.filterMap (fun c => c.bind parseDate))

/-- checks.promo_calendar_diagnostics, state-passing form: the last three
components are the caller-visible states of the frame and the two side
tables after the call — the source mutates only copies.  Big-change weeks
are cross-referenced against the side tables' week sets (all values at day
granularity). -/
def promo_calendar_diagnostics_run (t : Table) (promos calendar : Option SideTable) :
    PromoDiag × Table × Option SideTable × Option SideTable :=
  let ret := fun (d : PromoDiag) => (d, t, promos, calendar)
  if promos = none ∧ calendar = none then ret (.no_data [])
  else
    if !(t.cols.contains "week_start") || !(t.cols.contains "units") then
      ret (.missing_columns [])
    else
      let agg := weeklyAgg t
      if agg.length < 4 then ret (.not_enough_history [])
      else
        let big := bigChangeWeeks agg
        if big.length = 0 then ret (.no_big_changes [])
        else
          let hintsP :=
            match promos with
            | some p =>
              if p.cols.contains "week_start" then
                let overlaps := big.filter (fun w => (sideWeeks p).contains w)
                if overlaps ≠ [] then
                  ["Large weekly changes on weeks " ++ toString overlaps ++
                   " overlap with promo weeks."]
                else []
              else []
            | none => []
          let hintsC :=
            match calendar with
            | some c =>
              if c.cols.contains "week_start" then
                let overlaps := big.filter (fun w => (sideWeeks c).contains w)
                if overlaps ≠ [] then
                  ["Large weekly changes on weeks " ++ toString overlaps ++
                   " overlap with calendar event weeks."]
                else []
              else []
            | none => []
          let hints := hintsP ++ hintsC
          let hints :=
            if hints = [] then
              ["Large weekly changes detected but no matching promo/calendar rows found."]
            else hints
          ret (.ok big.length big hints)

/-- checks.promo_calendar_diagnostics, result only. -/
def promo_calendar_diagnostics (t : Table) (promos calendar : Option SideTable) :
    PromoDiag :=
  (promo_calendar_diagnostics_run t promos calendar).1

/-- DEFAULTS in dq_sentinel.py: blocking threshold for pct_backfilled. -/
def partial_backfill_pct_threshold : ℚ := 1 / 5

/-- DEFAULTS in dq_sentinel.py: any duplicates block. -/
def duplicate_block_threshold : Nat := 1

/-- DEFAULTS in dq_sentinel.py: any level-shift group blocks. -/
def level_shift_groups_threshold : Nat := 1

/-- The `duplicates:<n>` reason tag. -/
def dupReason (n : Nat) : String := "duplicates:" ++ toString n

/-- The `partial_backfill_pct:<value>` reason tag (value rounded to three
decimals as `round(pct, 3)` does). -/
def pbReason (pct : ℚ) : String := "partial_backfill_pct:" ++ decStr (pyRound pct 3) 3

/-- The `level_shift_groups:<n>` reason tag. -/
def lsReason (n : Nat) : String := "level_shift_groups:" ++ toString n

/-- The blocking policy of analyze_file (dq_sentinel.py lines 64-88): the
accumulated reason list, in the source's fixed evaluation order.  Each
`result[...].get(...)` on a sentinel diagnostic yields None / the default,
so sentinel records never fire a rule. -/
def blockingReasonsOf (schema : SchemaDiag) (dup : DupDiag) (pb : PBDiag)
    (mix : MixDiag) (ls : LSDiag) (tz : TzDiag) : List String :=
  (if schema.missing_columns ≠ [] then ["missing_schema_columns"] else []) ++
  (match dup with
   | .ok _ n _ => if duplicate_block_threshold ≤ n then [dupReason n] else []
   | _ => []) ++
  (match pb with
   | .ok _ _ pct _ => if partial_backfill_pct_threshold < pct then [pbReason pct] else []
   | _ => []) ++
  (match mix with
   | .ok _ _ _ suspected _ => if suspected then ["unit_price_mixup_suspected"] else []
   | _ => []) ++
  (match ls with
   | .ok _ g _ => if level_shift_groups_threshold ≤ g then [lsReason g] else []
   | _ => []) ++
  (match tz with
   | .ok _ _ suspicious _ => if suspicious then ["timezone_anomaly_or_dup_pk"] else []
   | _ => [])

/-- The verdict derived from the reason list: FAIL iff at least one reason
accumulated. -/
def blockingVerdict (reasons : List String) : String :=
  if 0 < reasons.length then "FAIL" else "PASS"

/-- The per-file report assembled by analyze_file.  Diagnostic fields are
`none` exactly when the corresponding check did not run (the read-error
short-circuit); the file name and timestamp metadata are outside the
model. -/
structure Report where
  error : Option String
  schema : Option SchemaDiag
  schema_versioning : Option SVDiag
  duplicates : Option DupDiag
  continuity : Option ContDiag
  level_shift : Option LSDiag
  unit_price_mixup : Option MixDiag
  partial_backfill : Option PBDiag
  tz_shift : Option TzDiag
  seasonality : Option SeasDiag
  promo_calendar : Option PromoDiag
  blocking_reasons : List String
  blocking : String
  deriving DecidableEq, Repr

/-- analyze_file (dq_sentinel.py).  The load step is the `Except` argument:
`.error` models a pd.read_csv failure, `.ok` the normalized frame.  On
load failure the function short-circuits to the read-error report and no
check runs.  Otherwise every check runs (in source order) and the blocking
policy is applied; an exception raised inside a check propagates
(analyze_file has no handler around the checks).  Writing the JSON report
is a side effect outside the model. -/
def analyze_file (loaded : Except String Table)
    (promos calendar : Option SideTable) : Except String Report :=
  match loaded with
  | .error e =>
    .ok { error := some ("read_error: " ++ e)
          schema := none, schema_versioning := none, duplicates := none
          continuity := none, level_shift := none, unit_price_mixup := none
          partial_backfill := none, tz_shift := none, seasonality := none
          promo_calendar := none
          blocking_reasons := ["read_error"], blocking := "FAIL" }
  | .ok df => do
    let schema := check_schema df
    let sv := detect_schema_versioning df
    let dup := check_duplicates df
    let cont ← check_date_continuity df 7 1
    let ls ← detect_level_shift df 8 3
    let mix := detect_unit_price_mixup df
    let pb := detect_partial_backfill df 30
    let tz := detect_timezone_shift df
    let seas := detect_seasonality_break df
    let promo := promo_calendar_diagnostics df promos calendar
    let reasons := blockingReasonsOf schema dup pb mix ls tz
    .ok { error := none
          schema := some schema, schema_versioning := some sv, duplicates := some dup
          continuity := some cont, level_shift := some ls, unit_price_mixup := some mix
          partial_backfill := some pb, tz_shift := some tz, seasonality := some seas
          promo_calendar := some promo
          blocking_reasons := reasons, blocking := blockingVerdict reasons }

/-- The outcome of one run of main: the process exit code and whether the
summary CSV artifact was written. -/
structure RunOutput where
  exitCode : Nat
  summaryWritten : Bool
  deriving DecidableEq, Repr

/-- main (dq_sentinel.py).  Inputs: whether the data directory exists and
the files matching the glob pattern, each with its load outcome (filename
and loaded table).  Files are processed in sorted name order; a missing
directory exits 2 before anything else, an empty match list exits 3 before
the summary is written, otherwise the summary is written and the exit code
is 1 iff some analyzed file is blocking.  An exception escaping
analyze_file propagates (`.error`): the process dies without reaching a
sys.exit, which is outside the exit-code contract. -/
def main (dirExists : Bool) (files : List (String × Except String Table))
    (promos calendar : Option SideTable) : Except String RunOutput :=
  if !dirExists then .ok ⟨2, false⟩
  else
    let sorted := stableSort (fun a b => decide (a.1 ≤ b.1)) files
    if sorted.isEmpty then .ok ⟨3, false⟩
    else do
      let reports ← sorted.mapM (fun f => analyze_file f.2 promos calendar)
      let anyFail := reports.any (fun r => r.blocking = "FAIL")
      .ok ⟨if anyFail then 1 else 0, true⟩

/-- duplicate_count as the policy reads it: `.get("duplicate_count")`,
None on the sentinel record. -/
def DupDiag.count? : DupDiag → Option Nat
  | .pk_column_missing _ => none
  | .ok _ n _ => some n

/-- pct_backfilled as the policy reads it: None on sentinel records. -/
def PBDiag.pct? : PBDiag → Option ℚ
  | .ok _ _ pct _ => some pct
  | _ => none

/-- suspected_unit_price_mixup as the policy reads it: `.get(...)` is falsy
on the sentinel record. -/
def MixDiag.suspected : MixDiag → Bool
  | .ok _ _ _ s _ => s
  | _ => false

/-- groups_with_level_shift as the policy reads it:
`.get("groups_with_level_shift", 0)`. -/
def LSDiag.groups : LSDiag → Nat
  | .ok _ g _ => g
  | _ => 0

/-- suspicious as the policy reads it: `.get("suspicious")` is falsy on the
sentinel record. -/
def TzDiag.isSuspicious : TzDiag → Bool
  | .ok _ _ s _ => s
  | _ => false

/-- The Blocking Policy as the spec describes it (sections 4.3 and 9): an
ordered table of (predicate over the diagnostic records, reason tag)
pairs, evaluated in the stated fixed order, accumulating every tag whose
predicate holds — non-exclusive. -/
def blockingPolicySpec (schema : SchemaDiag) (dup : DupDiag) (pb : PBDiag)
    (mix : MixDiag) (ls : LSDiag) (tz : TzDiag) : List String :=
  ([(decide (schema.missing_columns ≠ []), "missing_schema_columns"),
    ((match dup.count? with | some n => decide (1 ≤ n) | none => false),
      dupReason (dup.count?.getD 0)),
    ((match pb.pct? with | some p => decide (1 / 5 < p) | none => false),
      pbReason (pb.pct?.getD 0)),
    (mix.suspected, "unit_price_mixup_suspected"),
    (decide (1 ≤ ls.groups), lsReason ls.groups),
    (tz.isSuspicious, "timezone_anomaly_or_dup_pk")] :
      List (Bool × String)).filterMap (fun p => if p.1 then some p.2 else none)

/-- The check battery of analyze_file in source order, with the
caller-visible frame / side-table states threaded through every call: each
check receives the state left by the previous one, and the final states
are returned alongside the ten diagnostic records. -/
def run_all_checks (t : Table) (promos calendar : Option SideTable) :
    Except String
      ((SchemaDiag × SVDiag × DupDiag × ContDiag × LSDiag × MixDiag × PBDiag ×
        TzDiag × SeasDiag × PromoDiag) × Table × Option SideTable × Option SideTable) := do
  let schema := check_schema t
  let sv := detect_schema_versioning t
  let dup := check_duplicates t
  let cont ← check_date_continuity t 7 1
  let lsr := detect_level_shift_run t 8 3
  let ls ← lsr.1
  let t1 := lsr.2
  let mix := detect_unit_price_mixup t1
  let pbr := detect_partial_backfill_run t1 30
  let pb := pbr.1
  let t2 := pbr.2
  let tz := detect_timezone_shift t2
  let seas := detect_seasonality_break t2
  let pcr := promo_calendar_diagnostics_run t2 promos calendar
  .ok ((schema, sv, dup, cont, ls, mix, pb, tz, seas, pcr.1),
       pcr.2.1, pcr.2.2.1, pcr.2.2.2)

/-- Claim-side reading of heuristic (a) of the mixup check: median price
below 1.5 and median units above 10 (a NaN median satisfies neither). -/
def mixupCondA (t : Table) : Prop :=
  (∃ m, median (priceVals t) = some m ∧ m < 3 / 2) ∧
  (∃ m, median (unitVals t) = some m ∧ 10 < m)

/-- Claim-side reading of heuristic (b) of the mixup check, with the strict
integer-share threshold the code applies: the price column is nonempty,
strictly more than 90% of its non-null values are integer-valued, the
price median exceeds 5 and the units median is below 2. -/
def mixupCondB (t : Table) : Prop :=
  priceVals t ≠ [] ∧
  9 * (priceVals t).length < 10 * (priceVals t).countP isIntQ ∧
  (∃ m, median (priceVals t) = some m ∧ 5 < m) ∧
  (∃ m, median (unitVals t) = some m ∧ m < 2)

/-- Row constructor for concrete test tables: key fields, units and price;
the remaining fields are null. -/
def mkRow (ws : Option Int) (sku store : Int) (u p : Option ℚ) : Row :=
  { week_start := ws, sku_id := sku, store_id := store, units := u, price := p,
    inventory_on_hand := none, currency := none, load_ts := none,
    source_file := none, load_ts_parsed := none, delta_days := none }

/-- Counterexample table for claim C1: full schema, price constantly the
integer 5 (so the price median is exactly 5) and units constantly 1. -/
def tPrice5 : Table :=
  ⟨expected_schema_v1,
   [mkRow (some 0) 1 1 (some 1) (some 5),
    mkRow (some 7) 1 1 (some 1) (some 5),
    mkRow (some 14) 1 1 (some 1) (some 5)]⟩

/-- Witness table for the amended claim C1: as `tPrice5` but with price
constantly the integer 6 (median 6 > 5). -/
def tPrice6 : Table :=
  ⟨expected_schema_v1,
   [mkRow (some 0) 1 1 (some 1) (some 6),
    mkRow (some 7) 1 1 (some 1) (some 6),
    mkRow (some 14) 1 1 (some 1) (some 6)]⟩

/-- Counterexample table for claim C4: ten non-null prices of which exactly
nine (90%, not more) are integer-valued, price median 6, units median 1. -/
def tNinety : Table :=
  ⟨["price", "units"],
   [mkRow (some 0) 1 1 (some 1) (some 6),
    mkRow (some 7) 1 1 (some 1) (some 6),
    mkRow (some 14) 1 1 (some 1) (some 6),
    mkRow (some 21) 1 1 (some 1) (some 6),
    mkRow (some 28) 1 1 (some 1) (some 6),
    mkRow (some 35) 1 1 (some 1) (some 6),
    mkRow (some 42) 1 1 (some 1) (some 6),
    mkRow (some 49) 1 1 (some 1) (some 6),
    mkRow (some 56) 1 1 (some 1) (some 6),
    mkRow (some 63) 1 1 (some 1) (some (13 / 2))]⟩

/-- Witness table for the amended claim C4: price and units columns present,
no rows. -/
def tEmptyPU : Table := ⟨["price", "units"], []⟩

/-- Failing input for claim C2: a table that has a week_start column but no
sku_id / store_id columns, on which check_date_continuity raises. -/
def tNoSkuA : Table := ⟨["week_start"], [mkRow (some 0) 1 1 none none]⟩

/-- Failing input for claim C2: units and week_start present but no
sku_id / store_id columns, on which detect_level_shift raises. -/
def tNoSkuB : Table := ⟨["units", "week_start"], [mkRow (some 0) 1 1 (some 1) none]⟩

/-- Witness table for claims C6 and C10: primary-key columns present, two
rows sharing a key and one distinct row. -/
def tDup : Table :=
  ⟨pkDefault,
   [mkRow (some 0) 1 1 (some 1) none,
    mkRow (some 0) 1 1 (some 2) none,
    mkRow (some 7) 1 1 (some 3) none]⟩

/-- Units pattern of the level-shift counterexample, arrangement A: the two
extreme windows are contiguous, so after the stable sort (all sort keys
equal) the first window averages 0 and the last averages 100; the sample
variance is 10000/9, so the squared z-score is exactly 9 = 3². -/
def unitsA : List ℚ :=
  List.replicate 8 0 ++ List.replicate 21 50 ++ List.replicate 8 100

/-- Units pattern, arrangement B: a permutation of `unitsA` interleaving the
extremes at both ends, so both window means are 50 and no shift fires. -/
def unitsB : List ℚ :=
  [0, 100, 0, 100, 0, 100, 0, 100] ++ List.replicate 21 50 ++
  [100, 0, 100, 0, 100, 0, 100, 0]

/-- Table of 37 rows in a single (sku_id, store_id) group, all with the same
week_start, units as given.  With duplicate week_start keys the stable
sort keeps the input order, so the window means depend on the row order. -/
def mkShiftTable (units : List ℚ) : Table :=
  ⟨["week_start", "sku_id", "store_id", "units"],
   units.map (fun u => mkRow (some 0) 1 1 (some u) none)⟩

/-- Witness tables for the amended claim C7: one group, two rows with
distinct week_start values, in both orders. -/
def tPermA : Table :=
  ⟨["week_start", "sku_id", "store_id", "units"],
   [mkRow (some 0) 1 1 (some 1) none, mkRow (some 7) 1 1 (some 2) none]⟩

/-- The same rows as `tPermA`, swapped. -/
def tPermB : Table :=
  ⟨["week_start", "sku_id", "store_id", "units"],
   [mkRow (some 7) 1 1 (some 2) none, mkRow (some 0) 1 1 (some 1) none]⟩

/-- The sort key of `sort_values(["sku_id", "store_id", "week_start"])` as a
tuple. -/
def sortKey (r : Row) : Int × Int × Option Int := (r.sku_id, r.store_id, r.week_start)

/-- The report analyze_file builds for a file that could not be read. -/
def readErrorReport (e : String) : Report :=
  { error := some ("read_error: " ++ e)
    schema := none, schema_versioning := none, duplicates := none
    continuity := none, level_shift := none, unit_price_mixup := none
    partial_backfill := none, tz_shift := none, seasonality := none
    promo_calendar := none
    blocking_reasons := ["read_error"], blocking := "FAIL" }

/-- The report of one runner entry, defaulting to the read-error report when
analysis raised (used only under the hypothesis that it did not). -/
def reportOf (x : String × Except String Table) (p c : Option SideTable) : Report :=
  match analyze_file x.2 p c with
  | .ok r => r
  | .error e => readErrorReport e

/-- Whether the runner counts an entry as blocking. -/
def fileBlocking (x : String × Except String Table) (p c : Option SideTable) : Bool :=
  (reportOf x p c).blocking = "FAIL"


/-- insertSorted yields a permutation of consing the element. -/
theorem insertSorted_perm {α : Type} (le : α → α → Bool) (x : α) (l : List α) :
    (insertSorted le x l).Perm (x :: l) := by
  induction l with
  | nil => exact List.Perm.refl _
  | cons y ys ih =>
    rw [insertSorted]
    split
    · exact (ih.cons y).trans (List.Perm.swap x y ys)
    · exact List.Perm.refl _

/-- stableSort yields a permutation of its input. -/
theorem stableSort_perm {α : Type} (le : α → α → Bool) (l : List α) :
    (stableSort le l).Perm l := by
  suffices h : ∀ acc : List α,
      (l.foldl (fun a x => insertSorted le x a) acc).Perm (acc ++ l) by
    simpa [stableSort] using h []
  induction l with
  | nil => intro acc; simp
  | cons x xs ih =>
    intro acc
    rw [List.foldl_cons]
    refine (ih (insertSorted le x acc)).trans ?_
    refine (((insertSorted_perm le x acc).append_right xs).trans ?_)
    exact List.perm_middle.symm

/-- insertSorted preserves le-sortedness for a transitive total preorder. -/
theorem insertSorted_pairwise {α : Type} {le : α → α → Bool}
    (htrans : ∀ a b c, le a b = true → le b c = true → le a c = true)
    (htot : ∀ a b, le a b = true ∨ le b a = true)
    (x : α) {l : List α} (hl : l.Pairwise (fun a b => le a b = true)) :
    (insertSorted le x l).Pairwise (fun a b => le a b = true) := by
  induction l with
  | nil => simp [insertSorted]
  | cons y ys ih =>
    rw [List.pairwise_cons] at hl
    obtain ⟨hy, hys⟩ := hl
    rw [insertSorted]
    split
    case isTrue hyx =>
      rw [List.pairwise_cons]
      refine ⟨?_, ih hys⟩
      intro z hz
      rcases List.mem_cons.mp ((insertSorted_perm le x ys).mem_iff.mp hz) with rfl | hzys
      · exact hyx
      · exact hy z hzys
    case isFalse hyx =>
      have hxy : le x y = true := by
        rcases htot x y with h | h
        · exact h
        · exact absurd h hyx
      rw [List.pairwise_cons]
      refine ⟨?_, List.pairwise_cons.mpr ⟨hy, hys⟩⟩
      intro z hz
      rcases List.mem_cons.mp hz with rfl | hzys
      · exact hxy
      · exact htrans x y z hxy (hy z hzys)

/-- stableSort sorts, for a transitive total preorder. -/
theorem stableSort_pairwise {α : Type} {le : α → α → Bool}
    (htrans : ∀ a b c, le a b = true → le b c = true → le a c = true)
    (htot : ∀ a b, le a b = true ∨ le b a = true) (l : List α) :
    (stableSort le l).Pairwise (fun a b => le a b = true) := by
  suffices h : ∀ acc : List α, acc.Pairwise (fun a b => le a b = true) →
      (l.foldl (fun a x => insertSorted le x a) acc).Pairwise
        (fun a b => le a b = true) by
    exact h [] (by simp)
  induction l with
  | nil => intro acc h; simpa using h
  | cons x xs ih =>
    intro acc h
    rw [List.foldl_cons]
    exact ih _ (insertSorted_pairwise htrans htot x h)

/-- Claim C5: when the load fails, the analyzer short-circuits: the report
carries the read-error and no diagnostic record at all, the verdict is
FAIL and the reason list is exactly ["read_error"]; no check runs (every
diagnostic field of the report is none). -/
theorem claim_C5 (e : String) (promos calendar : Option SideTable) :
    analyze_file (.error e) promos calendar = .ok (readErrorReport e) ∧
    (readErrorReport e).blocking = "FAIL" ∧
    (readErrorReport e).blocking_reasons = ["read_error"] ∧
    (readErrorReport e).error = some ("read_error: " ++ e) ∧
    (readErrorReport e).schema = none ∧
    (readErrorReport e).schema_versioning = none ∧
    (readErrorReport e).duplicates = none ∧
    (readErrorReport e).continuity = none ∧
    (readErrorReport e).level_shift = none ∧
    (readErrorReport e).unit_price_mixup = none ∧
    (readErrorReport e).partial_backfill = none ∧
    (readErrorReport e).tz_shift = none ∧
    (readErrorReport e).seasonality = none ∧
    (readErrorReport e).promo_calendar = none :=
  ⟨rfl, rfl, rfl, rfl, rfl, rfl, rfl, rfl, rfl, rfl, rfl, rfl, rfl, rfl⟩

/-- Claim C2 is false of the code: on a table that has a week_start column
but no sku_id / store_id column, check_date_continuity raises a KeyError
from its unguarded groupby instead of returning a sentinel record, and
detect_level_shift likewise raises from its unguarded sort_values when
units and week_start are present but sku_id / store_id are absent.  The
spec's no-raise rule is the evident intent (both functions carefully
return sentinel statuses for the columns they do guard), so this is a
code bug, demonstrated here at the failing inputs. -/
theorem claim_C2_failing :
    check_date_continuity tNoSkuA 7 1 = .error "KeyError: sku_id / store_id" ∧
    detect_level_shift tNoSkuB 8 3 = .error "KeyError: sku_id / store_id" := by
  constructor <;> rfl

/-- A flagged filterMap over (flag, tag) pairs picks out a sublist of the
tags, in order. -/
theorem filterMap_flag_sublist (l : List (Bool × String)) :
    (l.filterMap (fun p => if p.1 then some p.2 else none)).Sublist
      (l.map Prod.snd) := by
  induction l with
  | nil => simp
  | cons hd tl ih =>
    rcases hd with ⟨b, s⟩
    cases b
    · simpa [List.filterMap_cons] using ih.cons s
    · simpa [List.filterMap_cons] using ih.cons₂ s

/-- The flagged filterMap over an explicit six-pair list is the ordered
concatenation of its optional singletons. -/
theorem filterMap_flags (b1 b2 b3 b4 b5 b6 : Bool) (s1 s2 s3 s4 s5 s6 : String) :
    ([(b1, s1), (b2, s2), (b3, s3), (b4, s4), (b5, s5), (b6, s6)].filterMap
        (fun p => if p.1 then some p.2 else none)) =
      (if b1 then [s1] else []) ++ (if b2 then [s2] else []) ++
      (if b3 then [s3] else []) ++ (if b4 then [s4] else []) ++
      (if b5 then [s5] else []) ++ (if b6 then [s6] else []) := by
  cases b1 <;> cases b2 <;> cases b3 <;> cases b4 <;> cases b5 <;> cases b6 <;> rfl

/-- The verdict is FAIL exactly when the reason list is nonempty. -/
theorem blockingVerdict_fail_iff (rs : List String) :
    blockingVerdict rs = "FAIL" ↔ rs ≠ [] := by
  cases rs <;> simp [blockingVerdict]

/-- Claim C3: the blocking policy is a pure function of the diagnostic
records: the reason list it accumulates coincides with the spec's ordered
(predicate, tag) rule table `blockingPolicySpec`, the verdict is FAIL iff
the reason list is nonempty (reasons are non-exclusive — each rule
contributes independently), and the reason list is always an ordered
sublist of the six tags in the fixed order missing_schema_columns,
duplicates:n, partial_backfill_pct:v, unit_price_mixup_suspected,
level_shift_groups:n, timezone_anomaly_or_dup_pk. -/
theorem claim_C3 (schema : SchemaDiag) (dup : DupDiag) (pb : PBDiag)
    (mix : MixDiag) (ls : LSDiag) (tz : TzDiag) :
    blockingReasonsOf schema dup pb mix ls tz =
      blockingPolicySpec schema dup pb mix ls tz ∧
    (blockingVerdict (blockingReasonsOf schema dup pb mix ls tz) = "FAIL" ↔
      blockingReasonsOf schema dup pb mix ls tz ≠ []) ∧
    (blockingReasonsOf schema dup pb mix ls tz).Sublist
      ["missing_schema_columns", dupReason (dup.count?.getD 0),
       pbReason (pb.pct?.getD 0), "unit_price_mixup_suspected",
       lsReason ls.groups, "timezone_anomaly_or_dup_pk"] := by
  have heq : blockingReasonsOf schema dup pb mix ls tz =
      blockingPolicySpec schema dup pb mix ls tz := by
    rw [blockingPolicySpec, filterMap_flags]
    cases dup <;> cases pb <;> cases mix <;> cases ls <;> cases tz <;>
      simp [blockingReasonsOf, DupDiag.count?, PBDiag.pct?, MixDiag.suspected,
        LSDiag.groups, TzDiag.isSuspicious, duplicate_block_threshold,
        partial_backfill_pct_threshold, level_shift_groups_threshold]
  refine ⟨heq, blockingVerdict_fail_iff _, ?_⟩
  rw [heq, blockingPolicySpec]
  exact filterMap_flag_sublist _

/-- Counting a key over the mapped key list is the embedded keyCount. -/
theorem count_map_pkKey (rows : List Row) (k : Option Int × Int × Int) :
    (rows.map pkKey).count k = keyCount rows k := by
  rw [keyCount, List.count, List.countP_map]
  apply List.countP_congr
  intro r _
  by_cases h : pkKey r = k <;> simp [h, Function.comp]

/-- Claim C6: with all three primary-key columns present, duplicate_count is
exactly the number of rows whose (week_start, sku_id, store_id) triple
occurs more than once, the sample is the first ten of them; in particular
the count is 0 with empty sample when all triples are distinct, and equals
the row count when every triple repeats. -/
theorem claim_C6 (t : Table)
    (h : pkDefault.all (fun col => t.cols.contains col) = true) :
    check_duplicates t =
      .ok pkDefault
        ((t.rows.filter (fun r => decide (1 < (t.rows.map pkKey).count (pkKey r)))).length)
        ((t.rows.filter (fun r => decide (1 < (t.rows.map pkKey).count (pkKey r)))).take 10) ∧
    ((∀ r ∈ t.rows, (t.rows.map pkKey).count (pkKey r) ≤ 1) →
      check_duplicates t = .ok pkDefault 0 []) ∧
    ((∀ r ∈ t.rows, 2 ≤ (t.rows.map pkKey).count (pkKey r)) →
      ∃ s, check_duplicates t = .ok pkDefault t.rows.length s) := by
  have hpred : ∀ r, (decide (1 < (t.rows.map pkKey).count (pkKey r))) =
      (decide (2 ≤ keyCount t.rows (pkKey r))) := by
    intro r
    rw [count_map_pkKey]
    rfl
  have hmain : check_duplicates t =
      .ok pkDefault
        ((t.rows.filter (fun r => decide (1 < (t.rows.map pkKey).count (pkKey r)))).length)
        ((t.rows.filter (fun r => decide (1 < (t.rows.map pkKey).count (pkKey r)))).take 10) := by
    rw [check_duplicates, if_pos h]
    have : (fun r => decide (2 ≤ keyCount t.rows (pkKey r))) =
        (fun r => decide (1 < (t.rows.map pkKey).count (pkKey r))) := by
      funext r
      exact (hpred r).symm
    rw [this]
  refine ⟨hmain, ?_, ?_⟩
  · intro hall
    rw [hmain]
    have hnil : t.rows.filter (fun r => decide (1 < (t.rows.map pkKey).count (pkKey r))) = [] := by
      rw [List.filter_eq_nil_iff]
      intro r hr
      simp only [decide_eq_true_eq, not_lt]
      exact hall r hr
    rw [hnil]
    rfl
  · intro hall
    have hself : t.rows.filter (fun r => decide (1 < (t.rows.map pkKey).count (pkKey r))) = t.rows := by
      rw [List.filter_eq_self]
      intro r hr
      simp only [decide_eq_true_eq]
      exact hall r hr
    refine ⟨t.rows.take 10, ?_⟩
    rw [hmain, hself]

/-- Claim C10: a returned duplicate_count is never exactly 1 — every counted
row has a counted partner with the same key — the sample is nonempty
exactly when the count is positive, and it holds at most ten entries. -/
theorem claim_C10 (t : Table) (n : Nat) (sample : List Row)
    (heq : check_duplicates t = .ok pkDefault n sample) :
    (n = 0 ∨ 2 ≤ n) ∧ (sample = [] ↔ n = 0) ∧ sample.length ≤ 10 := by
  by_cases hcols : pkDefault.all (fun col => t.cols.contains col) = true
  case neg =>
    rw [check_duplicates, if_neg hcols] at heq
    exact absurd heq (by simp)
  rw [check_duplicates, if_pos hcols] at heq
  rw [DupDiag.ok.injEq] at heq
  obtain ⟨-, hn, hs⟩ := heq
  set dup := t.rows.filter (fun r => decide (2 ≤ keyCount t.rows (pkKey r))) with hdup
  refine ⟨?_, ?_, ?_⟩
  · by_cases hz : n = 0
    · exact Or.inl hz
    right
    have hpos : 0 < dup.length := by
      omega
    obtain ⟨r, hr⟩ := List.exists_mem_of_length_pos hpos
    rw [hdup] at hr
    have hr2 : 2 ≤ keyCount t.rows (pkKey r) :=
      of_decide_eq_true (List.mem_filter.mp hr).2
    have hle : keyCount t.rows (pkKey r) ≤ dup.length := by
      rw [hdup, ← List.countP_eq_length_filter, keyCount]
      apply List.countP_mono_left
      intro s _ hsk
      have hk : pkKey s = pkKey r := of_decide_eq_true hsk
      simpa [keyCount, hk] using hr2
    omega
  · rw [← hs, ← hn, List.take_eq_nil_iff, List.length_eq_zero]
    constructor
    · rintro (h10 | hnil)
      · exact absurd h10 (by decide)
      · exact hnil
    · exact Or.inr
  · rw [← hs]
    exact List.length_take_le 10 dup

/-- Witness for claim C6 at a concrete table with one duplicated key. -/
theorem claim_C6_witness :
    (pkDefault.all (fun col => tDup.cols.contains col) = true) ∧
    (check_duplicates tDup =
      .ok pkDefault
        ((tDup.rows.filter
          (fun r => decide (1 < (tDup.rows.map pkKey).count (pkKey r)))).length)
        ((tDup.rows.filter
          (fun r => decide (1 < (tDup.rows.map pkKey).count (pkKey r)))).take 10) ∧
    ((∀ r ∈ tDup.rows, (tDup.rows.map pkKey).count (pkKey r) ≤ 1) →
      check_duplicates tDup = .ok pkDefault 0 []) ∧
    ((∀ r ∈ tDup.rows, 2 ≤ (tDup.rows.map pkKey).count (pkKey r)) →
      ∃ s, check_duplicates tDup = .ok pkDefault tDup.rows.length s)) :=
  ⟨by decide, claim_C6 tDup (by decide)⟩

/-- Witness for claim C10 at a concrete table whose duplicate_count is 2. -/
theorem claim_C10_witness :
    (check_duplicates tDup =
      .ok pkDefault 2
        [mkRow (some 0) 1 1 (some 1) none, mkRow (some 0) 1 1 (some 2) none]) ∧
    ((2 = 0 ∨ 2 ≤ 2) ∧
      ([mkRow (some 0) 1 1 (some 1) none, mkRow (some 0) 1 1 (some 2) none] = ([] : List Row) ↔
        2 = 0) ∧
      ([mkRow (some 0) 1 1 (some 1) none, mkRow (some 0) 1 1 (some 2) none] : List Row).length ≤ 10) :=
  ⟨by decide, claim_C10 tDup 2 _ (by decide)⟩

/-- detect_level_shift never mutates the caller's frame: its writes go to a
copy (the source re-binds `df` to `df.copy()` and to the result of
`sort_values`, which returns a new frame). -/
theorem detect_level_shift_frame (t : Table) (w : Nat) (z : ℚ) :
    (detect_level_shift_run t w z).2 = t := by
  rw [detect_level_shift_run]
  split
  · rfl
  split <;> rfl

/-- detect_partial_backfill never mutates the caller's frame: the
`delta_days` column is assigned on a copy. -/
theorem detect_partial_backfill_frame (t : Table) (thr : Int) :
    (detect_partial_backfill_run t thr).2 = t := by
  rw [detect_partial_backfill_run]
  split
  · rfl
  dsimp only
  split <;> rfl

/-- promo_calendar_diagnostics never mutates the caller's frame or side
tables: the week_start parses are applied to copies. -/
theorem promo_calendar_frame (t : Table) (p c : Option SideTable) :
    (promo_calendar_diagnostics_run t p c).2 = (t, p, c) := by
  rw [promo_calendar_diagnostics_run]
  dsimp only
  (repeat' split) <;> rfl

/-- Claim C9: no check modifies its input table or the side tables — each
state-passing check returns the caller's objects unchanged — and hence
running the whole battery with the state threaded from check to check
gives every check the original table and yields exactly the diagnostics of
the independent (pure) checks on the original input, in any order. -/
theorem claim_C9 (t : Table) (p c : Option SideTable) (w : Nat) (z : ℚ) (thr : Int) :
    (detect_level_shift_run t w z).2 = t ∧
    (detect_partial_backfill_run t thr).2 = t ∧
    (promo_calendar_diagnostics_run t p c).2 = (t, p, c) ∧
    run_all_checks t p c = (do
      let cont ← check_date_continuity t 7 1
      let ls ← detect_level_shift t 8 3
      Except.ok ((check_schema t, detect_schema_versioning t, check_duplicates t,
        cont, ls, detect_unit_price_mixup t, detect_partial_backfill t 30,
        detect_timezone_shift t, detect_seasonality_break t,
        promo_calendar_diagnostics t p c), t, p, c)) := by
  refine ⟨detect_level_shift_frame t w z, detect_partial_backfill_frame t thr,
    promo_calendar_frame t p c, ?_⟩
  simp only [run_all_checks, detect_level_shift_frame, detect_partial_backfill_frame,
    promo_calendar_frame, detect_level_shift, detect_partial_backfill,
    promo_calendar_diagnostics]

/-- Whether one runner entry analyzes without an escaping exception. -/
def analyzesCleanly (x : String × Except String Table) (p c : Option SideTable) : Prop :=
  analyze_file x.2 p c = .ok (reportOf x p c)

/-- mapM over Except succeeds pointwise. -/
theorem mapM_except_ok {α β : Type} {g : α → Except String β} {f : α → β}
    (l : List α) (h : ∀ a ∈ l, g a = .ok (f a)) :
    l.mapM g = .ok (l.map f) := by
  induction l with
  | nil => rfl
  | cons hd tl ih =>
    have hhd := h hd (List.mem_cons_self hd tl)
    have htl := ih (fun a ha => h a (List.mem_cons_of_mem hd ha))
    rw [List.mapM_cons, List.map_cons]
    rw [hhd, htl]
    rfl

/-- any over a permutation. -/
theorem perm_any {α : Type} {l₁ l₂ : List α} (hp : l₁.Perm l₂) (f : α → Bool) :
    l₁.any f = l₂.any f := by
  apply Bool.eq_iff_iff.mpr
  simp only [List.any_eq_true]
  constructor
  · rintro ⟨x, hx, hfx⟩
    exact ⟨x, hp.mem_iff.mp hx, hfx⟩
  · rintro ⟨x, hx, hfx⟩
    exact ⟨x, hp.mem_iff.mpr hx, hfx⟩

/-- any over a map, for heterogeneous types. -/
theorem any_map_comp {α β : Type} (l : List α) (f : α → β) (p : β → Bool) :
    (l.map f).any p = l.any (fun a => p (f a)) := by
  induction l with
  | nil => rfl
  | cons x xs ih => simp [List.any_cons, ih]

/-- Claim C8: the runner's exit code is 2 when the data directory is
missing, 3 (with no summary artifact written) when no file matches the
pattern, and otherwise — provided every analysis completes without an
escaping exception — the summary is written and the exit code is 1 when
at least one analyzed file is blocking, 0 when none is. -/
theorem claim_C8 (dirExists : Bool) (files : List (String × Except String Table))
    (p c : Option SideTable)
    (hok : ∀ x ∈ files, analyzesCleanly x p c) :
    (dirExists = false → main dirExists files p c = .ok ⟨2, false⟩) ∧
    (dirExists = true → files = [] → main dirExists files p c = .ok ⟨3, false⟩) ∧
    (dirExists = true → files ≠ [] →
      main dirExists files p c =
        .ok ⟨if files.any (fun x => fileBlocking x p c) then 1 else 0, true⟩) := by
  refine ⟨?_, ?_, ?_⟩
  · intro hd
    rw [main, hd]
    rfl
  · intro hd hf
    rw [main, hd, hf]
    rfl
  · intro hd hf
    rw [main, hd]
    have hperm := stableSort_perm (fun a b : String × Except String Table => decide (a.1 ≤ b.1)) files
    have hne : (stableSort (fun a b : String × Except String Table => decide (a.1 ≤ b.1)) files).isEmpty = false := by
      rw [List.isEmpty_eq_false_iff_exists_mem]
      obtain ⟨x, hx⟩ := List.exists_mem_of_ne_nil files hf
      exact ⟨x, hperm.mem_iff.mpr hx⟩
    have hmap : (stableSort (fun a b : String × Except String Table => decide (a.1 ≤ b.1)) files).mapM
        (fun f => analyze_file f.2 p c) =
        .ok ((stableSort (fun a b : String × Except String Table => decide (a.1 ≤ b.1)) files).map
          (fun x => reportOf x p c)) := by
      apply mapM_except_ok
      intro x hx
      exact hok x (hperm.mem_iff.mp hx)
    rw [if_neg (by simp)]
    dsimp only
    rw [if_neg (by rw [hne]; exact Bool.false_ne_true)]
    rw [hmap]
    have hany : ((stableSort (fun a b : String × Except String Table => decide (a.1 ≤ b.1)) files).map
        (fun x => reportOf x p c)).any (fun r => decide (r.blocking = "FAIL")) =
        files.any (fun x => fileBlocking x p c) := by
      rw [any_map_comp]
      exact perm_any hperm _
    exact congrArg
      (fun b : Bool => (Except.ok (RunOutput.mk (if b then 1 else 0) true) : Except String RunOutput))
      hany

/-- Witness for claim C8: a single unreadable file yields a FAIL report, so
the completed run writes the summary and exits 1. -/
theorem claim_C8_witness :
    main true [("a.csv", (Except.error "boom" : Except String Table))] none none =
      .ok ⟨1, true⟩ := by
  have hok : ∀ x ∈ [("a.csv", (Except.error "boom" : Except String Table))],
      analyzesCleanly x none none := by
    intro x hx
    rw [List.mem_singleton] at hx
    subst hx
    rfl
  have h := (claim_C8 true [("a.csv", (Except.error "boom" : Except String Table))]
    none none hok).2.2 rfl (by simp)
  rw [h]
  rfl

/-- oLt is the strict comparison on a present value. -/
theorem oLt_iff (m : Option ℚ) (c : ℚ) : oLt m c = true ↔ ∃ x, m = some x ∧ x < c := by
  cases m <;> simp [oLt]

/-- oGt is the strict comparison on a present value. -/
theorem oGt_iff (m : Option ℚ) (c : ℚ) : oGt m c = true ↔ ∃ x, m = some x ∧ c < x := by
  cases m <;> simp [oGt]

/-- The 90%-share comparison, cleared of denominators. -/
theorem frac_gt_iff (cnt len : Nat) (hlen : 0 < len) :
    ((9 : ℚ) / 10 < (cnt : ℚ) / (len : ℚ)) ↔ 9 * len < 10 * cnt := by
  rw [div_lt_div_iff₀ (by norm_num) (by exact_mod_cast hlen)]
  constructor
  · intro h
    have h' : (9 : ℚ) * len < 10 * cnt := by linarith
    exact_mod_cast h'
  · intro h
    have h' : (9 : ℚ) * len < 10 * cnt := by exact_mod_cast h
    linarith

/-- mixupCondA is the truth of the code's first heuristic condition. -/
theorem mixupCondA_iff (t : Table) :
    mixupCondA t ↔
      (oLt (median (priceVals t)) (3 / 2) && oGt (median (unitVals t)) 10) = true := by
  rw [mixupCondA, Bool.and_eq_true, oLt_iff, oGt_iff]

/-- mixupCondB is the truth of the code's second heuristic condition. -/
theorem mixupCondB_iff (t : Table) :
    mixupCondB t ↔
      (decide (0 < (priceVals t).length) &&
        decide ((9 : ℚ) / 10 <
          (((priceVals t).countP isIntQ : ℚ) / ((priceVals t).length : ℚ))) &&
        oGt (median (priceVals t)) 5 && oLt (median (unitVals t)) 2) = true := by
  rw [mixupCondB]
  simp only [Bool.and_eq_true, decide_eq_true_eq, oLt_iff, oGt_iff]
  constructor
  · rintro ⟨hne, hfrac, hmed, hum⟩
    have hlen : 0 < (priceVals t).length := List.length_pos.mpr hne
    exact ⟨⟨⟨hlen, (frac_gt_iff _ _ hlen).mpr hfrac⟩, hmed⟩, hum⟩
  · rintro ⟨⟨⟨hlen, hfrac⟩, hmed⟩, hum⟩
    exact ⟨List.length_pos.mp hlen, (frac_gt_iff _ _ hlen).mp hfrac, hmed, hum⟩

/-- Claim C4 is false as stated: on `tNinety` exactly 90% (not more) of the
non-null prices are integer-valued while price median 6 > 5, units median
1 < 2 and heuristic (a) does not apply, so the claim's "at least 90%"
reading demands suspected = true, yet the code (strict > 0.9) reports
suspected = false. -/
theorem claim_C4_counterexample :
    10 * (priceVals tNinety).countP isIntQ = 9 * (priceVals tNinety).length ∧
    median (priceVals tNinety) = some 6 ∧
    median (unitVals tNinety) = some 1 ∧
    ¬ mixupCondA tNinety ∧
    detect_unit_price_mixup tNinety = .ok (some 6) (some 1) (some (1 / 6)) false "" := by
  have hpv : priceVals tNinety =
      [6, 6, 6, 6, 6, 6, 6, 6, 6, 13 / 2] := by
    norm_num [priceVals, tNinety, mkRow, List.filterMap_cons]
  have huv : unitVals tNinety = [1, 1, 1, 1, 1, 1, 1, 1, 1, 1] := by
    norm_num [unitVals, tNinety, mkRow, List.filterMap_cons]
  have hmp : median (priceVals tNinety) = some 6 := by
    rw [hpv]
    norm_num [median, stableSort, insertSorted]
  have hmu : median (unitVals tNinety) = some 1 := by
    rw [huv]
    norm_num [median, stableSort, insertSorted]
  have hcnt : (priceVals tNinety).countP isIntQ = 9 := by
    rw [hpv]
    norm_num [List.countP_cons, isIntQ]
  refine ⟨?_, hmp, hmu, ?_, ?_⟩
  · rw [hcnt, hpv]
    rfl
  · rintro ⟨⟨m, hm, hlt⟩, -⟩
    rw [hmp, Option.some.injEq] at hm
    rw [← hm] at hlt
    norm_num at hlt
  · rw [detect_unit_price_mixup, if_neg (by norm_num [tNinety])]
    dsimp only
    rw [hmp, hmu, hcnt, hpv]
    norm_num [oLt, oGt]

/-- The amended claim C4: suspected_unit_price_mixup is reported iff
heuristic (a) fires, or (a) does not fire and heuristic (b) fires with a
strictly-more-than-90% integer share (the code's `> 0.9`, not the claim's
"at least 90%"); the first matching heuristic wins and no further
heuristic is evaluated. -/
theorem claim_C4_amended (t : Table)
    (hp : t.cols.contains "price" = true) (hu : t.cols.contains "units" = true) :
    (detect_unit_price_mixup t).suspected = true ↔
      mixupCondA t ∨ (¬ mixupCondA t ∧ mixupCondB t) := by
  rw [detect_unit_price_mixup, if_neg (by rw [hp, hu]; simp)]
  dsimp only
  by_cases hA : (oLt (median (priceVals t)) (3 / 2) && oGt (median (unitVals t)) 10) = true
  · rw [if_pos hA]
    simp only [MixDiag.suspected]
    constructor
    · intro _
      exact Or.inl ((mixupCondA_iff t).mpr hA)
    · intro _
      trivial
  · rw [if_neg hA]
    have hnA : ¬ mixupCondA t := fun hc => hA ((mixupCondA_iff t).mp hc)
    by_cases hB : (decide (0 < (priceVals t).length) &&
        decide ((9 : ℚ) / 10 <
          (((priceVals t).countP isIntQ : ℚ) / ((priceVals t).length : ℚ))) &&
        oGt (median (priceVals t)) 5 && oLt (median (unitVals t)) 2) = true
    · rw [if_pos hB]
      simp only [MixDiag.suspected]
      constructor
      · intro _
        exact Or.inr ⟨hnA, (mixupCondB_iff t).mpr hB⟩
      · intro _
        trivial
    · rw [if_neg hB]
      simp only [MixDiag.suspected]
      constructor
      · intro hc
        exact absurd hc (by simp)
      · rintro (hc | ⟨-, hc⟩)
        · exact absurd hc hnA
        · exact absurd ((mixupCondB_iff t).mp hc) hB

/-- Witness for the amended claim C4 at a table with price and units columns
and no rows. -/
theorem claim_C4_amended_witness :
    (tEmptyPU.cols.contains "price" = true ∧ tEmptyPU.cols.contains "units" = true) ∧
    ((detect_unit_price_mixup tEmptyPU).suspected = true ↔
      mixupCondA tEmptyPU ∨ (¬ mixupCondA tEmptyPU ∧ mixupCondB tEmptyPU)) :=
  ⟨⟨by decide, by decide⟩, claim_C4_amended tEmptyPU (by decide) (by decide)⟩

/-- A stable sort of a constant list is that list. -/
theorem stableSort_all_eq {v : ℚ} {l : List ℚ} (h : ∀ x ∈ l, x = v) :
    stableSort (fun a b => decide (a ≤ b)) l = List.replicate l.length v := by
  have hp := stableSort_perm (fun a b => decide (a ≤ b)) l
  rw [List.eq_replicate_iff]
  exact ⟨hp.length_eq, fun b hb => h b (hp.mem_iff.mp hb)⟩

/-- The median of a nonempty constant list is its value. -/
theorem median_all_eq {l : List ℚ} {v : ℚ} (hne : l ≠ []) (h : ∀ x ∈ l, x = v) :
    median l = some v := by
  rw [median]
  rw [stableSort_all_eq h, List.length_replicate]
  have hlen : l.length ≠ 0 := fun h0 => hne (List.length_eq_zero.mp h0)
  rw [if_neg hlen]
  have h1 : l.length / 2 < l.length :=
    Nat.div_lt_self (Nat.pos_of_ne_zero hlen) one_lt_two
  have h2 : l.length / 2 - 1 < l.length := lt_of_le_of_lt (Nat.sub_le _ _) h1
  by_cases hodd : l.length % 2 = 1
  · rw [if_pos hodd, List.getElem?_replicate, if_pos h1]
  · rw [if_neg hodd, List.getElem?_replicate, if_pos h2,
      List.getElem?_replicate, if_pos h1]
    norm_num

/-- A filterMap of constantly-some fields is a constant list. -/
theorem filterMap_price_const {v : ℚ} (l : List Row)
    (h : ∀ r ∈ l, r.price = some v) :
    l.filterMap (fun r => r.price) = List.replicate l.length v := by
  induction l with
  | nil => rfl
  | cons r rs ih =>
    rw [List.filterMap_cons, h r (List.mem_cons_self r rs), List.length_cons,
      List.replicate_succ]
    rw [ih (fun x hx => h x (List.mem_cons_of_mem r hx))]

/-- Claim C1 is false as stated: on `tPrice5` the price column is constantly
the integer 5 (price median exactly 5, every value integer) and the units
median is 1, yet the code reports suspected_unit_price_mixup = false,
because its fallback heuristic requires the price median to be strictly
greater than 5. -/
theorem claim_C1_counterexample :
    (∀ r ∈ tPrice5.rows, r.price = some 5) ∧
    median (priceVals tPrice5) = some 5 ∧
    (∀ q ∈ priceVals tPrice5, isIntQ q = true) ∧
    median (unitVals tPrice5) = some 1 ∧
    detect_unit_price_mixup tPrice5 = .ok (some 5) (some 1) (some (1 / 5)) false "" := by
  have hpv : priceVals tPrice5 = [5, 5, 5] := by
    norm_num [priceVals, tPrice5, mkRow, List.filterMap_cons]
  have huv : unitVals tPrice5 = [1, 1, 1] := by
    norm_num [unitVals, tPrice5, mkRow, List.filterMap_cons]
  have hmp : median (priceVals tPrice5) = some 5 := by
    rw [hpv]
    norm_num [median, stableSort, insertSorted]
  have hmu : median (unitVals tPrice5) = some 1 := by
    rw [huv]
    norm_num [median, stableSort, insertSorted]
  refine ⟨by norm_num [tPrice5, mkRow], hmp, ?_, hmu, ?_⟩
  · rw [hpv]
    norm_num [isIntQ]
  · rw [detect_unit_price_mixup, if_neg (by decide)]
    dsimp only
    rw [hmp, hmu, hpv]
    norm_num [oLt, oGt, isIntQ, List.countP_cons]

/-- Bind of a success in Except. -/
theorem except_bind_ok {ε α β : Type} (a : α) (f : α → Except ε β) :
    (Except.ok a >>= f : Except ε β) = f a := rfl

/-- The amended claim C1: for any table with sku_id and store_id columns
present (so no check raises), a nonempty price column constantly equal to
an integer value strictly GREATER than 5 — with price exactly 5 the
heuristic does not fire, see the counterexample — and units median 1, the
mixup check reports suspected = true, and the analyzer's verdict for the
file is blocking = FAIL with unit_price_mixup_suspected among the
reasons. -/
theorem claim_C1_amended (t : Table) (v : ℚ) (promos calendar : Option SideTable)
    (hp : t.cols.contains "price" = true) (hu : t.cols.contains "units" = true)
    (hsku : t.cols.contains "sku_id" = true)
    (hstore : t.cols.contains "store_id" = true)
    (hne : t.rows ≠ [])
    (hv : ∀ r ∈ t.rows, r.price = some v)
    (hvint : isIntQ v = true) (hgt : (5 : ℚ) < v)
    (hum : median (unitVals t) = some 1) :
    (detect_unit_price_mixup t).suspected = true ∧
    ∃ rep, analyze_file (.ok t) promos calendar = .ok rep ∧
      rep.blocking = "FAIL" ∧
      "unit_price_mixup_suspected" ∈ rep.blocking_reasons := by
  have hpv : priceVals t = List.replicate t.rows.length v := filterMap_price_const _ hv
  have hlen0 : t.rows.length ≠ 0 := fun h0 => hne (List.length_eq_zero.mp h0)
  have hpne : priceVals t ≠ [] := by
    rw [hpv]
    intro hc
    exact hlen0 (by simpa using congrArg List.length hc)
  have hmp : median (priceVals t) = some v := by
    apply median_all_eq hpne
    intro x hx
    rw [hpv] at hx
    exact List.eq_of_mem_replicate hx
  have hcnt : (priceVals t).countP isIntQ = (priceVals t).length := by
    rw [List.countP_eq_length]
    intro x hx
    rw [hpv] at hx
    rw [List.eq_of_mem_replicate hx]
    exact hvint
  have hplen : 0 < (priceVals t).length := by
    rw [hpv, List.length_replicate]
    exact Nat.pos_of_ne_zero hlen0
  have hA : (oLt (median (priceVals t)) (3 / 2) && oGt (median (unitVals t)) 10) =
      false := by
    rw [hmp]
    have hf : oLt (some v) (3 / 2) = false := by
      simp only [oLt, decide_eq_false_iff_not]
      intro hc
      linarith
    rw [hf, Bool.false_and]
  have hB : (decide (0 < (priceVals t).length) &&
      decide ((9 : ℚ) / 10 <
        (((priceVals t).countP isIntQ : ℚ) / ((priceVals t).length : ℚ))) &&
      oGt (median (priceVals t)) 5 && oLt (median (unitVals t)) 2) = true := by
    rw [hcnt, hmp, hum]
    have h1 : decide (0 < (priceVals t).length) = true := by
      simp [hplen]
    have h2 : decide ((9 : ℚ) / 10 <
        (((priceVals t).length : ℚ) / ((priceVals t).length : ℚ))) = true := by
      rw [div_self (by exact_mod_cast hplen.ne' : ((priceVals t).length : ℚ) ≠ 0)]
      norm_num
    have h3 : oGt (some v) 5 = true := by
      simp only [oGt, decide_eq_true_eq]
      exact hgt
    have h4 : oLt (some (1 : ℚ)) 2 = true := by
      norm_num [oLt]
    rw [h1, h2, h3, h4]
    rfl
  have hsusp : (detect_unit_price_mixup t).suspected = true := by
    rw [detect_unit_price_mixup, if_neg (by rw [hp, hu]; simp)]
    dsimp only
    rw [if_neg (by rw [hA]; exact Bool.false_ne_true), if_pos hB]
    rfl
  have hcont : ∃ d, check_date_continuity t 7 1 = .ok d := by
    rw [check_date_continuity]
    by_cases hw : t.cols.contains "week_start" = true
    · rw [hw, hsku, hstore]
      exact ⟨_, rfl⟩
    · rw [Bool.not_eq_true] at hw
      rw [hw]
      exact ⟨_, rfl⟩
  have hls : ∃ d, detect_level_shift t 8 3 = .ok d := by
    rw [detect_level_shift, detect_level_shift_run, hsku, hstore]
    by_cases hw : (!(t.cols.contains "units") || !(t.cols.contains "week_start")) = true
    · rw [if_pos hw]
      exact ⟨_, rfl⟩
    · rw [if_neg hw]
      exact ⟨_, rfl⟩
  obtain ⟨cont, hcont⟩ := hcont
  obtain ⟨lsd, hls⟩ := hls
  have hmem : "unit_price_mixup_suspected" ∈
      blockingReasonsOf (check_schema t) (check_duplicates t)
        (detect_partial_backfill t 30) (detect_unit_price_mixup t) lsd
        (detect_timezone_shift t) := by
    rcases hmix : detect_unit_price_mixup t with _ | ⟨pm, um, rt, s, hintstr⟩
    · rw [hmix] at hsusp
      exact absurd hsusp (by simp [MixDiag.suspected])
    · rw [hmix] at hsusp
      simp only [MixDiag.suspected] at hsusp
      subst hsusp
      dsimp only [blockingReasonsOf]
      exact List.mem_append_left _ (List.mem_append_left _
        (List.mem_append_right _ (by simp)))
  have hrep : analyze_file (.ok t) promos calendar = .ok
      { error := none
        schema := some (check_schema t)
        schema_versioning := some (detect_schema_versioning t)
        duplicates := some (check_duplicates t)
        continuity := some cont
        level_shift := some lsd
        unit_price_mixup := some (detect_unit_price_mixup t)
        partial_backfill := some (detect_partial_backfill t 30)
        tz_shift := some (detect_timezone_shift t)
        seasonality := some (detect_seasonality_break t)
        promo_calendar := some (promo_calendar_diagnostics t promos calendar)
        blocking_reasons := blockingReasonsOf (check_schema t) (check_duplicates t)
          (detect_partial_backfill t 30) (detect_unit_price_mixup t) lsd
          (detect_timezone_shift t)
        blocking := blockingVerdict (blockingReasonsOf (check_schema t)
          (check_duplicates t) (detect_partial_backfill t 30)
          (detect_unit_price_mixup t) lsd (detect_timezone_shift t)) } := by
    simp only [analyze_file, hcont, hls, except_bind_ok]
  exact ⟨hsusp, _, hrep,
    (blockingVerdict_fail_iff _).mpr (List.ne_nil_of_mem hmem), hmem⟩

/-- Witness for the amended claim C1 at the concrete table with price
constantly 6 and units constantly 1. -/
theorem claim_C1_amended_witness :
    (detect_unit_price_mixup tPrice6).suspected = true ∧
    ∃ rep, analyze_file (.ok tPrice6) none none = .ok rep ∧
      rep.blocking = "FAIL" ∧
      "unit_price_mixup_suspected" ∈ rep.blocking_reasons :=
  claim_C1_amended tPrice6 6 none none (by decide) (by decide) (by decide) (by decide)
    (by simp [tPrice6]) (by decide) (by norm_num [isIntQ]) (by norm_num)
    (by norm_num [median, stableSort, insertSorted, unitVals, tPrice6, mkRow,
      List.filterMap_cons])

/-- Inserting below elements that all sort no-later lands at the end. -/
theorem insertSorted_all_le {α : Type} {le : α → α → Bool} {x : α} {acc : List α}
    (h : ∀ y ∈ acc, le y x = true) : insertSorted le x acc = acc ++ [x] := by
  induction acc with
  | nil => rfl
  | cons y ys ih =>
    rw [insertSorted, if_pos (h y (List.mem_cons_self y ys))]
    rw [ih (fun z hz => h z (List.mem_cons_of_mem y hz))]
    rfl

/-- Folding insertion over a list whose elements all sort no-earlier than
the accumulator (and than each other) appends it. -/
theorem foldl_insert_all_le {α : Type} (le : α → α → Bool) :
    ∀ (l acc : List α), (∀ x ∈ l, ∀ y ∈ acc, le y x = true) →
      (∀ x ∈ l, ∀ y ∈ l, le y x = true) →
      l.foldl (fun a x => insertSorted le x a) acc = acc ++ l := by
  intro l
  induction l with
  | nil =>
    intro acc _ _
    simp
  | cons x xs ih =>
    intro acc hacc hl
    have h1 : ∀ z ∈ xs, ∀ y ∈ acc ++ [x], le y z = true := by
      intro z hz y hy
      rcases List.mem_append.mp hy with hy | hy
      · exact hacc z (List.mem_cons_of_mem x hz) y hy
      · rw [List.mem_singleton] at hy
        rw [hy]
        exact hl z (List.mem_cons_of_mem x hz) x (List.mem_cons_self x xs)
    have h2 : ∀ a ∈ xs, ∀ y ∈ xs, le y a = true := fun a ha y hy =>
      hl a (List.mem_cons_of_mem x ha) y (List.mem_cons_of_mem x hy)
    rw [List.foldl_cons, insertSorted_all_le (hacc x (List.mem_cons_self x xs)),
      ih (acc ++ [x]) h1 h2]
    simp

/-- A stable sort of a list whose elements compare no-later pairwise in
input order is the identity. -/
theorem stableSort_all_le {α : Type} {le : α → α → Bool} {l : List α}
    (h : ∀ x ∈ l, ∀ y ∈ l, le y x = true) : stableSort le l = l := by
  have := foldl_insert_all_le le l [] (by simp) h
  simpa [stableSort] using this

/-- All rows of a single-group shift table compare equal under the sort
key. -/
theorem mkShift_all_le (units : List ℚ) :
    ∀ x ∈ (mkShiftTable units).rows, ∀ y ∈ (mkShiftTable units).rows,
      rowKeyLe y x = true := by
  intro x hx y hy
  rw [mkShiftTable] at hx hy
  simp only [List.mem_map] at hx hy
  obtain ⟨u, -, rfl⟩ := hx
  obtain ⟨w, -, rfl⟩ := hy
  rfl

/-- dedupFirstAux drops everything already seen. -/
theorem dedupFirstAux_all_mem {α : Type} [DecidableEq α] {seen l : List α}
    (h : ∀ x ∈ l, x ∈ seen) : dedupFirstAux seen l = [] := by
  induction l with
  | nil => rfl
  | cons x xs ih =>
    rw [dedupFirstAux, if_pos (h x (List.mem_cons_self x xs))]
    exact ih (fun z hz => h z (List.mem_cons_of_mem x hz))

/-- dedupFirst of a nonempty constant list is the singleton. -/
theorem dedupFirst_const {α : Type} [DecidableEq α] {l : List α} {a : α}
    (hne : l ≠ []) (h : ∀ x ∈ l, x = a) : dedupFirst l = [a] := by
  cases l with
  | nil => exact absurd rfl hne
  | cons x xs =>
    have hx : x = a := h x (List.mem_cons_self x xs)
    subst hx
    rw [dedupFirst, dedupFirstAux, if_neg (by simp)]
    rw [dedupFirstAux_all_mem]
    intro z hz
    rw [h z (List.mem_cons_of_mem x hz)]
    exact List.mem_cons_self x []

/-- The group keys of a single-group shift table. -/
theorem groupKeys_mkShift (units : List ℚ) (hne : units ≠ []) :
    groupKeysOf (mkShiftTable units).rows = [(1, 1)] := by
  rw [groupKeysOf]
  have hconst : ∀ k ∈ (mkShiftTable units).rows.map
      (fun r => (r.sku_id, r.store_id)), k = ((1 : Int), (1 : Int)) := by
    intro k hk
    rw [mkShiftTable] at hk
    simp only [List.map_map, List.mem_map] at hk
    obtain ⟨u, -, rfl⟩ := hk
    rfl
  rw [stableSort_all_le (fun x hx y hy => by rw [hconst x hx, hconst y hy]; rfl)]
  apply dedupFirst_const ?_ hconst
  rw [mkShiftTable]
  simp only [ne_eq, List.map_eq_nil_iff]
  simpa [mkShiftTable] using hne

/-- The single group of a shift table is the whole frame. -/
theorem groupRows_mkShift (units : List ℚ) :
    groupRowsOf (mkShiftTable units).rows (1, 1) = (mkShiftTable units).rows := by
  rw [groupRowsOf, List.filter_eq_self]
  intro r hr
  rw [mkShiftTable] at hr
  simp only [List.mem_map] at hr
  obtain ⟨u, -, rfl⟩ := hr
  rfl

/-- The non-null units of a shift table are the generating list. -/
theorem mkShift_units (units : List ℚ) :
    ((mkShiftTable units).rows).filterMap (fun r => r.units) = units := by
  rw [mkShiftTable]
  dsimp only
  rw [List.filterMap_map]
  convert List.filterMap_some units using 2

/-- Evaluation of detect_level_shift on a single-group shift table: the one
group is tested (when long enough) and flagged according to the window
means and variance of the generating units list, in input order (the
stable sort keeps the order of the equal sort keys). -/
theorem detect_level_shift_mkShift (units : List ℚ) (hne : units ≠ [])
    (w : Nat) (z : ℚ) :
    detect_level_shift (mkShiftTable units) w z = .ok (
      if units.length < 2 * w then .ok 0 0 []
      else
        match sampleVar units with
        | none => .ok 1 0 []
        | some vr =>
          if vr = 0 then .ok 1 0 []
          else if z ^ 2 * vr ≤
              (lmean (units.drop (units.length - w)) - lmean (units.take w)) ^ 2 then
            .ok 1 1 [⟨1, 1,
              (lmean (units.drop (units.length - w)) - lmean (units.take w)) ^ 2 / vr,
              lmean (units.take w), lmean (units.drop (units.length - w))⟩]
          else .ok 1 0 []) := by
  rw [detect_level_shift, detect_level_shift_run]
  rw [if_neg (by simp [mkShiftTable]), if_neg (by simp [mkShiftTable])]
  dsimp only [tableCopy]
  rw [stableSort_all_le (mkShift_all_le units)]
  rw [groupKeys_mkShift units hne]
  rw [List.foldl_cons, List.foldl_nil]
  dsimp only
  rw [groupRows_mkShift units, mkShift_units units]
  by_cases hlen : units.length < 2 * w
  · rw [if_pos hlen, if_pos hlen]
    rfl
  · rw [if_neg hlen, if_neg hlen]
    cases hvar : sampleVar units with
    | none => rfl
    | some vr =>
      dsimp only
      by_cases hv0 : vr = 0
      · rw [if_pos hv0, if_pos hv0]
        rfl
      · rw [if_neg hv0, if_neg hv0]
        by_cases hz : z ^ 2 * vr ≤
            (lmean (units.drop (units.length - w)) - lmean (units.take w)) ^ 2
        · rw [if_pos hz, if_pos hz]
          rfl
        · rw [if_neg hz, if_neg hz]
          rfl

/-- Arrangement A evaluates to one tested group with a flagged level shift
(squared z-score exactly 9 = 3²). -/
theorem detect_level_shift_unitsA :
    detect_level_shift (mkShiftTable unitsA) 8 3 =
      .ok (.ok 1 1 [⟨1, 1, 9, 0, 100⟩]) := by
  rw [detect_level_shift_mkShift unitsA (by simp [unitsA]) 8 3]
  have hAlit : unitsA =
      [0, 0, 0, 0, 0, 0, 0, 0, 50, 50, 50, 50, 50, 50, 50, 50, 50, 50, 50, 50, 50, 50, 50, 50, 50, 50, 50, 50, 50, 100, 100, 100, 100, 100, 100, 100, 100] := by
    simp [unitsA, List.replicate_succ]
  rw [hAlit]
  norm_num [sampleVar, lmean, sumQ, List.take_succ_cons, List.drop_succ_cons]

/-- Arrangement B — a permutation of A within the same group — evaluates to
one tested group and no flagged shift (both window means are 50). -/
theorem detect_level_shift_unitsB :
    detect_level_shift (mkShiftTable unitsB) 8 3 = .ok (.ok 1 0 []) := by
  rw [detect_level_shift_mkShift unitsB (by simp [unitsB]) 8 3]
  have hBlit : unitsB =
      [0, 100, 0, 100, 0, 100, 0, 100, 50, 50, 50, 50, 50, 50, 50, 50, 50, 50, 50, 50, 50, 50, 50, 50, 50, 50, 50, 50, 50, 100, 0, 100, 0, 100, 0, 100, 0] := by
    simp [unitsB, List.replicate_succ]
  rw [hBlit]
  norm_num [sampleVar, lmean, sumQ, List.take_succ_cons, List.drop_succ_cons]

/-- Claim C7 is false as stated: the two single-group tables hold the same
rows — one is a permutation of the other within the one (sku_id, store_id)
group, all rows sharing one week_start — yet detect_level_shift flags a
level shift for arrangement A and none for arrangement B, because with
duplicate week_start sort keys the stable re-sort preserves the input
order and the window means depend on it. -/
theorem claim_C7_counterexample :
    (mkShiftTable unitsB).rows.Perm (mkShiftTable unitsA).rows ∧
    (mkShiftTable unitsB).cols = (mkShiftTable unitsA).cols ∧
    (∀ r ∈ (mkShiftTable unitsA).rows,
      r.sku_id = 1 ∧ r.store_id = 1 ∧ r.week_start = some 0) ∧
    (∀ r ∈ (mkShiftTable unitsB).rows,
      r.sku_id = 1 ∧ r.store_id = 1 ∧ r.week_start = some 0) ∧
    detect_level_shift (mkShiftTable unitsB) 8 3 ≠
      detect_level_shift (mkShiftTable unitsA) 8 3 := by
  refine ⟨List.Perm.map _ (by decide), rfl, ?_, ?_, ?_⟩
  · intro r hr
    rw [mkShiftTable] at hr
    simp only [List.mem_map] at hr
    obtain ⟨u, -, rfl⟩ := hr
    exact ⟨rfl, rfl, rfl⟩
  · intro r hr
    rw [mkShiftTable] at hr
    simp only [List.mem_map] at hr
    obtain ⟨u, -, rfl⟩ := hr
    exact ⟨rfl, rfl, rfl⟩
  · rw [detect_level_shift_unitsA, detect_level_shift_unitsB]
    simp

/-- The week_start comparison is total. -/
theorem wsLe_total (x y : Option Int) : wsLe x y = true ∨ wsLe y x = true := by
  cases x <;> cases y <;> simp [wsLe]
  exact le_total _ _

/-- The week_start comparison is transitive. -/
theorem wsLe_trans {x y z : Option Int} (h1 : wsLe x y = true)
    (h2 : wsLe y z = true) : wsLe x z = true := by
  cases x <;> cases y <;> cases z <;> simp [wsLe] at *
  omega

/-- The week_start comparison is antisymmetric. -/
theorem wsLe_antisymm {x y : Option Int} (h1 : wsLe x y = true)
    (h2 : wsLe y x = true) : x = y := by
  cases x <;> cases y <;> simp [wsLe] at *
  omega

/-- The row sort key comparison is total. -/
theorem rowKeyLe_total (a b : Row) : rowKeyLe a b = true ∨ rowKeyLe b a = true := by
  simp only [rowKeyLe, Bool.or_eq_true, Bool.and_eq_true, decide_eq_true_eq]
  rcases lt_trichotomy a.sku_id b.sku_id with h | h | h
  · exact Or.inl (Or.inl h)
  · rcases lt_trichotomy a.store_id b.store_id with h2 | h2 | h2
    · exact Or.inl (Or.inr ⟨h, Or.inl h2⟩)
    · rcases wsLe_total a.week_start b.week_start with h3 | h3
      · exact Or.inl (Or.inr ⟨h, Or.inr ⟨h2, h3⟩⟩)
      · exact Or.inr (Or.inr ⟨h.symm, Or.inr ⟨h2.symm, h3⟩⟩)
    · exact Or.inr (Or.inr ⟨h.symm, Or.inl h2⟩)
  · exact Or.inr (Or.inl h)

/-- The row sort key comparison is transitive. -/
theorem rowKeyLe_trans (a b c : Row) (h1 : rowKeyLe a b = true)
    (h2 : rowKeyLe b c = true) : rowKeyLe a c = true := by
  simp only [rowKeyLe, Bool.or_eq_true, Bool.and_eq_true, decide_eq_true_eq] at h1 h2 ⊢
  rcases h1 with h1 | ⟨e1, h1⟩
  · rcases h2 with h2 | ⟨e2, h2⟩
    · exact Or.inl (h1.trans h2)
    · exact Or.inl (e2 ▸ h1)
  · rcases h2 with h2 | ⟨e2, h2⟩
    · exact Or.inl (by rw [e1]; exact h2)
    · refine Or.inr ⟨e1.trans e2, ?_⟩
      rcases h1 with h1 | ⟨f1, h1⟩
      · rcases h2 with h2 | ⟨f2, h2⟩
        · exact Or.inl (h1.trans h2)
        · exact Or.inl (f2 ▸ h1)
      · rcases h2 with h2 | ⟨f2, h2⟩
        · exact Or.inl (by rw [f1]; exact h2)
        · exact Or.inr ⟨f1.trans f2, wsLe_trans h1 h2⟩

/-- Rows comparing no-later both ways share the same sort key. -/
theorem rowKeyLe_antisymm_key {a b : Row} (h1 : rowKeyLe a b = true)
    (h2 : rowKeyLe b a = true) : sortKey a = sortKey b := by
  simp only [rowKeyLe, Bool.or_eq_true, Bool.and_eq_true, decide_eq_true_eq] at h1 h2
  rw [sortKey, sortKey]
  rcases h1 with h1 | ⟨e1, h1⟩
  · rcases h2 with h2 | ⟨e2, h2⟩
    · exact absurd (h1.trans h2) (lt_irrefl _)
    · exact absurd (e2 ▸ h1) (lt_irrefl _)
  · rcases h2 with h2 | ⟨e2, h2⟩
    · exact absurd (e1 ▸ h2) (lt_irrefl _)
    · rcases h1 with h1 | ⟨f1, h1⟩
      · rcases h2 with h2 | ⟨f2, h2⟩
        · exact absurd (h1.trans h2) (lt_irrefl _)
        · exact absurd (f2 ▸ h1) (lt_irrefl _)
      · rcases h2 with h2 | ⟨f2, h2⟩
        · exact absurd (f1 ▸ h2) (lt_irrefl _)
        · rw [e1, f1, wsLe_antisymm h1 h2]

/-- Two sorted row lists that are permutations of each other and have
pairwise-distinct sort keys are equal (stable sorting is unique on
distinct keys). -/
theorem sorted_nodupkeys_unique {l₁ l₂ : List Row} (hp : l₁.Perm l₂)
    (hs₁ : l₁.Pairwise (fun a b => rowKeyLe a b = true))
    (hs₂ : l₂.Pairwise (fun a b => rowKeyLe a b = true))
    (hnd : (l₁.map sortKey).Nodup) : l₁ = l₂ := by
  have hnd₂ : (l₂.map sortKey).Nodup := ((hp.map sortKey).nodup_iff).mp hnd
  have hne₁ : l₁.Pairwise (fun a b => sortKey a ≠ sortKey b) := by
    rw [List.Nodup, List.pairwise_map] at hnd
    exact hnd
  have hne₂ : l₂.Pairwise (fun a b => sortKey a ≠ sortKey b) := by
    rw [List.Nodup, List.pairwise_map] at hnd₂
    exact hnd₂
  letI : IsAntisymm Row (fun a b => rowKeyLe a b = true ∧ sortKey a ≠ sortKey b) :=
    ⟨fun a b h1 h2 => absurd (rowKeyLe_antisymm_key h1.1 h2.1) h1.2⟩
  exact List.eq_of_perm_of_sorted hp (hs₁.and hne₁) (hs₂.and hne₂)

/-- The stable re-sort of detect_level_shift is determined by the row
multiset when the sort keys are pairwise distinct. -/
theorem stableSort_eq_of_perm {l₁ l₂ : List Row} (hp : l₁.Perm l₂)
    (hnd : (l₂.map sortKey).Nodup) :
    stableSort rowKeyLe l₁ = stableSort rowKeyLe l₂ := by
  have hperm : (stableSort rowKeyLe l₁).Perm (stableSort rowKeyLe l₂) :=
    (stableSort_perm _ l₁).trans (hp.trans (stableSort_perm _ l₂).symm)
  apply sorted_nodupkeys_unique hperm
  · exact stableSort_pairwise rowKeyLe_trans rowKeyLe_total l₁
  · exact stableSort_pairwise rowKeyLe_trans rowKeyLe_total l₂
  · exact (((stableSort_perm rowKeyLe l₁).map sortKey).nodup_iff).mpr
      (((hp.map sortKey).nodup_iff).mpr hnd)

/-- The amended claim C7: detect_level_shift returns the same diagnostic
record on any permutation of the rows provided the (sku_id, store_id,
week_start) sort keys are pairwise distinct — in particular under row
permutations within a group whose week_start values are distinct.  With
duplicated keys the record can change (see the counterexample): the stable
re-sort then preserves input order inside the tied runs. -/
theorem claim_C7_amended (t t' : Table) (w : Nat) (z : ℚ)
    (hcols : t'.cols = t.cols) (hperm : t'.rows.Perm t.rows)
    (hnd : (t.rows.map sortKey).Nodup) :
    detect_level_shift t' w z = detect_level_shift t w z := by
  rw [detect_level_shift, detect_level_shift, detect_level_shift_run,
    detect_level_shift_run]
  dsimp only [tableCopy]
  rw [hcols, stableSort_eq_of_perm hperm hnd]
  by_cases h1 : (!t.cols.contains "units" || !t.cols.contains "week_start") = true
  · rw [if_pos h1, if_pos h1]
  · rw [if_neg h1, if_neg h1]
    by_cases h2 : (!(t.cols.contains "sku_id" && t.cols.contains "store_id")) = true
    · rw [if_pos h2, if_pos h2]
    · rw [if_neg h2, if_neg h2]

/-- Witness for the amended claim C7: two rows of one group with distinct
week_start values, in both orders. -/
theorem claim_C7_amended_witness :
    (tPermB.cols = tPermA.cols ∧ tPermB.rows.Perm tPermA.rows ∧
      (tPermA.rows.map sortKey).Nodup) ∧
    detect_level_shift tPermB 8 3 = detect_level_shift tPermA 8 3 :=
  ⟨⟨rfl, by decide, by decide⟩,
    claim_C7_amended tPermA tPermB 8 3 rfl (by decide) (by decide)⟩
